import Mathlib

/-!
Verification development for the LazyPost terminal HTTP client.

The definitions below are a shallow embedding of the Go sources
(`ui/app.go`, `ui/keymap.go`, `ui/validator.go`, the components under
`ui/components/`, and the unnamed source parts).  Each Lean definition
mirrors one Go function or type; Go field names are kept.  Keyboard
events are modelled by their `msg.String()` value, Go strings by Lean
`String` (or `List Char` where the algorithm walks the string), Go map
assignment by functional update of a `String → Option String` map, and
the external `bubbles` text-input widget by the pair of its logical
text and focus flag (a key press when focused appends to the text;
cursor movement is not part of the modelled state).
-/

set_option maxHeartbeats 1000000

namespace LazyPost

/-- Key strings, as produced by `tea.KeyMsg.String()` in the sources. -/
def keyEnter : String := "enter"

/-- Key string for the up arrow. -/
def keyUp : String := "up"

/-- Key string for the down arrow. -/
def keyDown : String := "down"

/-- Key string for the left arrow. -/
def keyLeft : String := "left"

/-- Key string for the right arrow. -/
def keyRight : String := "right"

/-- Key string for Tab. -/
def keyTab : String := "tab"

/-- Key string for Shift+Tab. -/
def keyShiftTab : String := "shift+tab"

/-- Key string for Escape. -/
def keyEsc : String := "esc"

/-- Key string for Ctrl+C. -/
def keyCtrlC : String := "ctrl+c"

/-- The empty string (used as the default for in-range list indexing). -/
def emptyString : String := ""

/-- Helper: counts a `Bool` as `0` or `1`, used to count active widgets. -/
def boolToNat (b : Bool) : Nat := if b then 1 else 0

/-- Helper: element at an index with a default, mirroring Go slice
indexing `xs[i]` (whose index is in range at every use site). -/
def nthD {α : Type} : List α → Nat → α → α
  | [], _, d => d
  | x :: _, 0, _ => x
  | _ :: xs, n + 1, d => nthD xs n d

/-- Helper: apply a function to the element at index `n` of a list,
mirroring an in-place Go slice element mutation (`xs[i].f = v`). -/
def updateAt {α : Type} (n : Nat) (f : α → α) : List α → List α
  | [] => []
  | x :: xs => match n with
    | 0 => f x :: xs
    | m + 1 => x :: updateAt m f xs

/-- Helper: map with the element index, mirroring Go `for i := range xs`. -/
def mapIdx {α : Type} (f : Nat → α → α) : List α → List α :=
  go 0
where
  go (i : Nat) : List α → List α
    | [] => []
    | x :: xs => f i x :: go (i + 1) xs

/-! ### MethodSelector (`unnamed/part_002`)

The HTTP-method dropdown.  Note that the Go type has no separate
highlighted index: `Next`/`Prev` mutate `SelectedMethod` directly. -/

/-- MethodSelector mirrors the Go struct of the same name. -/
structure MethodSelector where
  Methods : List String
  SelectedMethod : Nat
  Width : Int
  Active : Bool
  DropdownOpen : Bool
deriving Repr, DecidableEq

/-- NewMethodSelector mirrors the Go constructor. -/
def NewMethodSelector : MethodSelector :=
  { Methods := ["GET", "POST", "PUT", "DELETE", "PATCH"]
    SelectedMethod := 0
    Width := 0
    Active := false
    DropdownOpen := false }

/-- MethodSelector.SetActive mirrors the Go method. -/
def MethodSelector.SetActive (m : MethodSelector) (active : Bool) : MethodSelector :=
  { m with Active := active }

/-- MethodSelector.GetSelectedMethod mirrors the Go method. -/
def MethodSelector.GetSelectedMethod (m : MethodSelector) : String :=
  if m.Methods.length = 0 then emptyString else nthD m.Methods m.SelectedMethod emptyString

/-- MethodSelector.Next mirrors the Go method:
`SelectedMethod = (SelectedMethod + 1) % len(Methods)`. -/
def MethodSelector.Next (m : MethodSelector) : MethodSelector :=
  { m with SelectedMethod := (m.SelectedMethod + 1) % m.Methods.length }

/-- MethodSelector.Prev mirrors the Go method:
`SelectedMethod = (SelectedMethod - 1 + len(Methods)) % len(Methods)`
(the Go value is never negative, so `Nat` arithmetic is exact). -/
def MethodSelector.Prev (m : MethodSelector) : MethodSelector :=
  { m with SelectedMethod := (m.SelectedMethod + m.Methods.length - 1) % m.Methods.length }

/-- MethodSelector.Update mirrors the Go key handler: `enter` toggles the
dropdown, `down`/`up` move the selection while the dropdown is open;
inactive selectors ignore all input. -/
def MethodSelector.Update (m : MethodSelector) (key : String) : MethodSelector :=
  if !m.Active then m
  else match key with
    | "enter" => { m with DropdownOpen := !m.DropdownOpen }
    | "down" => if m.DropdownOpen then m.Next else m
    | "up" => if m.DropdownOpen then m.Prev else m
    | _ => m

/-! ### Text wrapping (`ui/components/body_container.go`, `wrapText`)

The Go function walks bytes of a string; the embedding works on the
list of its characters, with `'\n'` the line separator. -/

/-- Chunks of a long line: the Go loop
`for j := 0; j < len(line); j += width` emitting `line[j:j+width]`.
The `0` case is unreachable from `wrapText` (it is guarded by
`width > 0`) and is given the value that keeps the equations total. -/
def chunks : Nat → List Char → List (List Char)
  | _, [] => []
  | 0, c :: cs => [c :: cs]
  | w + 1, c :: cs =>
    (c :: cs).take (w + 1) :: chunks (w + 1) ((c :: cs).drop (w + 1))
termination_by _ l => l.length
decreasing_by
  simp [List.length_drop]
  omega

/-- One line of `wrapText`: lines no longer than the width are kept,
longer lines are emitted in consecutive width-sized chunks. -/
def wrapLine (w : Nat) (line : List Char) : List (List Char) :=
  if line.length ≤ w then [line] else chunks w line

/-- Split on `'\n'`, mirroring Go `strings.Split(content, "\n")`
(so the empty string yields one empty piece). -/
def splitNl : List Char → List (List Char)
  | [] => [[]]
  | c :: rest =>
    if c = '\n' then [] :: splitNl rest
    else match splitNl rest with
      | [] => [[c]]
      | l :: ls => (c :: l) :: ls

/-- wrapText mirrors the Go function: non-positive widths return the
content unchanged; otherwise every line is wrapped by `wrapLine` and the
pieces are reassembled with single `'\n'` separators (the Go builder
writes a separator after every chunk of a line except the last, and
after every original line except the last, which is exactly
`intercalate`). -/
def wrapText (content : List Char) (width : Int) : List Char :=
  if width ≤ 0 then content
  else List.intercalate ['\n'] ((splitNl content).flatMap (wrapLine width.toNat))

/-! ### HeadersInputContainer (`ui/components/headers_input.go`)

Nine rows, each a header-name dropdown plus a value text input.  The
external `textinput` widget is modelled by its logical text and focus
flag; a non-navigation key delivered to a focused value input appends
to its text. -/

/-- numHeaderRows mirrors the Go constant. -/
def numHeaderRows : Nat := 9

/-- headerOptionsStrings mirrors the Go option list. -/
def headerOptionsStrings : List String :=
  ["Empty", "Accept", "Accept-Charset", "Accept-Encoding", "Accept-Language",
   "Authorization", "Cache-Control", "Connection", "Content-Length",
   "Content-MD5", "Content-Type", "Cookie", "Date", "Expect",
   "Host", "Max-Forwards",
   "Origin", "Pragma", "Proxy-Authorization", "Range", "Referer",
   "TE", "Upgrade", "User-Agent", "Via",
   "X-Csrf-Token", "X-Request-ID", "X-Correlation-ID"]

/-- HeaderInput mirrors the Go struct: one row of the headers grid.
`ValueText`/`ValueFocused` model the embedded `textinput.Model`. -/
structure HeaderInput where
  HeaderSelect : List String
  SelectedHeader : Nat
  DropdownOpen : Bool
  ValueText : String
  ValueFocused : Bool
deriving Repr, DecidableEq

/-- Zero row used for (unreachable) out-of-range list access. -/
def defaultHeaderInput : HeaderInput :=
  { HeaderSelect := [], SelectedHeader := 0, DropdownOpen := false
    ValueText := "", ValueFocused := false }

/-- HeadersInputContainer mirrors the Go struct (rendering-only fields
such as labels and styles are omitted). -/
structure HeadersInputContainer where
  inputs : List HeaderInput
  focusedRow : Nat
  focusedInput : Nat
  Active : Bool
deriving Repr, DecidableEq

/-- NewHeadersInputContainer mirrors the Go constructor. -/
def NewHeadersInputContainer : HeadersInputContainer :=
  { inputs := List.replicate numHeaderRows
      { HeaderSelect := headerOptionsStrings, SelectedHeader := 0
        DropdownOpen := false, ValueText := "", ValueFocused := false }
    focusedRow := 0
    focusedInput := 0
    Active := false }

/-- focusCurrentInput mirrors the Go method: the value input of the
focused row is focused exactly when `focusedInput = 1`; every other
value input is blurred. -/
def HeadersInputContainer.focusCurrentInput (h : HeadersInputContainer) :
    HeadersInputContainer :=
  { h with inputs := mapIdx (fun i inp =>
      if i = h.focusedRow then
        if h.focusedInput = 1 then { inp with ValueFocused := true }
        else { inp with ValueFocused := false }
      else { inp with ValueFocused := false }) h.inputs }

/-- blurAllInputs mirrors the Go method. -/
def HeadersInputContainer.blurAllInputs (h : HeadersInputContainer) :
    HeadersInputContainer :=
  { h with inputs := h.inputs.map (fun inp => { inp with ValueFocused := false }) }

/-- SetActive mirrors the Go method on `HeadersInputContainer`. -/
def HeadersInputContainer.SetActive (h : HeadersInputContainer) (active : Bool) :
    HeadersInputContainer :=
  let h := { h with Active := active }
  if active then h.focusCurrentInput else h.blurAllInputs

/-- The navigation `switch` of `HeadersInputContainer.Update`:
dropdown navigation commits directly into `SelectedHeader`; row
navigation clamps at the edges; `left` and `right` move only between
the two columns of the current row; `enter` toggles the dropdown or the
value-input focus. -/
def HeadersInputContainer.navStep (h : HeadersInputContainer) (key : String) :
    HeadersInputContainer :=
  let currentInput := nthD h.inputs h.focusedRow defaultHeaderInput
  match key with
  | "up" =>
    if h.focusedInput = 0 ∧ currentInput.DropdownOpen then
      { h with inputs := (updateAt h.focusedRow (fun inp =>
          { inp with SelectedHeader :=
              ((inp.SelectedHeader + inp.HeaderSelect.length - 1) %
                inp.HeaderSelect.length) }) h.inputs) }
    else if 0 < h.focusedRow then { h with focusedRow := h.focusedRow - 1 }
    else h
  | "down" =>
    if h.focusedInput = 0 ∧ currentInput.DropdownOpen then
      { h with inputs := (updateAt h.focusedRow (fun inp =>
          { inp with SelectedHeader :=
              ((inp.SelectedHeader + 1) % inp.HeaderSelect.length) }) h.inputs) }
    else if h.focusedRow < numHeaderRows - 1 then
      { h with focusedRow := h.focusedRow + 1 }
    else h
  | "left" =>
    if h.focusedInput = 1 then { h with focusedInput := 0 } else h
  | "right" =>
    if h.focusedInput = 0 then { h with focusedInput := 1 } else h
  | "enter" =>
    if h.focusedInput = 0 then
      { h with inputs := (updateAt h.focusedRow (fun inp =>
          { inp with DropdownOpen := !inp.DropdownOpen }) h.inputs) }
    else if h.focusedInput = 1 then
      { h with inputs := (updateAt h.focusedRow (fun inp =>
          { inp with ValueFocused := !inp.ValueFocused }) h.inputs) }
    else h
  | _ => h

/-- The auto-close step of `HeadersInputContainer.Update`: if a
dropdown was open on the previously focused cell and the focus moved
away from that cell, close it. -/
def HeadersInputContainer.autoClose (h : HeadersInputContainer)
    (prevFocusedRow prevFocusedInput : Nat) (prevDropdownOpen : Bool) :
    HeadersInputContainer :=
  if prevDropdownOpen ∧
      (h.focusedRow ≠ prevFocusedRow ∨
        (h.focusedRow = prevFocusedRow ∧ h.focusedInput ≠ prevFocusedInput ∧
          prevFocusedInput = 0)) then
    { h with inputs := (updateAt prevFocusedRow
        (fun inp => { inp with DropdownOpen := false }) h.inputs) }
  else h

/-- Update mirrors the Go key handler of `HeadersInputContainer`:
value-input passthrough for editing keys, the navigation `switch`
(`navStep`), the auto-close of a dropdown the focus moved away from
(`autoClose`), and the final `focusCurrentInput`. -/
def HeadersInputContainer.Update (h : HeadersInputContainer) (key : String) :
    HeadersInputContainer :=
  let currentInput := nthD h.inputs h.focusedRow defaultHeaderInput
  let isNavKey := key = keyUp ∨ key = keyDown ∨ key = keyLeft ∨ key = keyRight
  let isEnterKey := key = keyEnter
  if h.focusedInput = 1 ∧ currentInput.ValueFocused ∧ ¬isNavKey ∧ ¬isEnterKey then
    { h with inputs := (updateAt h.focusedRow
        (fun inp => { inp with ValueText := inp.ValueText ++ key }) h.inputs) }
  else
    let prevFocusedRow := h.focusedRow
    let prevFocusedInput := h.focusedInput
    let prevDropdownOpen := h.focusedInput = 0 ∧ currentInput.DropdownOpen
    ((h.navStep key).autoClose prevFocusedRow prevFocusedInput
      (decide prevDropdownOpen)).focusCurrentInput

/-- GetHeaders mirrors the Go method: iterate all rows in order, and a
row writes `headers[name] = value` exactly when its selection index is
in range, the selected name is not `"Empty"`, and the value text is
non-empty (the Go local variables are inlined).  The Go map is modelled
as a functional map. -/
def HeadersInputContainer.GetHeaders (h : HeadersInputContainer) :
    String → Option String :=
  h.inputs.foldl (fun m inp =>
    if 0 < inp.HeaderSelect.length ∧ inp.SelectedHeader < inp.HeaderSelect.length then
      if nthD inp.HeaderSelect inp.SelectedHeader emptyString ≠ "Empty" ∧ inp.ValueText ≠ "" then
        fun x => if x = nthD inp.HeaderSelect inp.SelectedHeader emptyString then
          some inp.ValueText else m x
      else m
    else m) (fun _ => none)

/-! ### ParamsContainer (`unnamed/part_008`)

Six name/value rows with a 2D focus cursor and a scroll window.  The
source fixes the row count in the constant `numParamRows` and derives
the visible row count from the container height in
`getNumDisplayableInputRows`; the navigation and scroll-maintenance
logic is embedded below with the row count `R` and the displayable
count `vc` as explicit parameters, so that the specification's
quantification over them is statable.  The container instantiates them
at `numParamRows` and `getNumDisplayableInputRows`. -/

/-- numParamRows mirrors the Go constant. -/
def numParamRows : Nat := 6

/-- ParamInput mirrors the Go struct; the two `textinput.Model`s are
modelled by their text and focus flag. -/
structure ParamInput where
  NameText : String
  NameFocused : Bool
  ValueText : String
  ValueFocused : Bool
deriving Repr, DecidableEq

/-- ParamsContainer mirrors the Go struct (width bookkeeping fields
that only affect rendering are omitted; `Height` feeds
`getNumDisplayableInputRows`). -/
structure ParamsContainer where
  Inputs : List ParamInput
  Height : Int
  Active : Bool
  focusedRow : Nat
  focusedCol : Nat
  scrollOffset : Nat
deriving Repr, DecidableEq

/-- NewParamsContainer mirrors the Go constructor: six blank rows, the
first name input focused. -/
def NewParamsContainer : ParamsContainer :=
  { Inputs := (updateAt 0 (fun p => { p with NameFocused := true })
      (List.replicate numParamRows
        { NameText := "", NameFocused := false, ValueText := ""
          ValueFocused := false }))
    Height := 0
    Active := false
    focusedRow := 0
    focusedCol := 0
    scrollOffset := 0 }

/-- getNumDisplayableInputRows mirrors the Go method: if the height is
unset all rows are displayable; otherwise subtract the vertical border
(2 lines for the rounded border) and the header and separator lines,
reserve one line for the scroll indicator when scrolling will be
active, and clamp to `[0, numParamRows]`. -/
def ParamsContainer.getNumDisplayableInputRows (pc : ParamsContainer) : Nat :=
  if pc.Height ≤ 0 then numParamRows
  else
    let borderSize : Int := 2
    let displayable : Int := pc.Height - borderSize - 2
    let displayable : Int :=
      if (numParamRows : Int) > displayable ∧ displayable > 0 then displayable - 1
      else displayable
    let displayable : Int := if displayable < 0 then 0 else displayable
    let displayable : Int :=
      if displayable > (numParamRows : Int) then (numParamRows : Int) else displayable
    displayable.toNat

/-- ensureVisible embeds `ParamsContainer.ensureFocusedInputVisible`
with the row count `R` and displayable count `vc` as parameters: no
scrolling when `vc` is zero or at least `R`; otherwise pull the window
up to the focused row or down so the focused row is its last line, then
clamp to `[0, R - vc]` (the Go `< 0` clamp is vacuous in `Nat`). -/
def ensureVisible (R vc row offset : Nat) : Nat :=
  if vc ≤ 0 ∨ vc ≥ R then 0
  else
    let offset :=
      if row < offset then row
      else if row ≥ offset + vc then row - vc + 1
      else offset
    let maxScrollOffset := R - vc
    if offset > maxScrollOffset then maxScrollOffset else offset

/-- The 2D focus cursor of a row grid together with its scroll offset. -/
structure GridCursor where
  row : Nat
  col : Nat
  offset : Nat
deriving Repr, DecidableEq

/-- gridNav embeds the navigation cases of `ParamsContainer.Update`
(`up`, `down`, `left`, `right`, `shift+tab`), parameterized by the row
count `R` and the displayable count `vc`: vertical moves clamp at the
edges, horizontal moves cross to the adjacent column and wrap to the
previous/next row at the column boundaries, and every move that changes
the row re-establishes visibility via `ensureVisible`. -/
def gridNav (R vc : Nat) (key : String) (g : GridCursor) : GridCursor :=
  match key with
  | "up" =>
    if 0 < g.row then
      let g := { g with row := g.row - 1 }
      { g with offset := ensureVisible R vc g.row g.offset }
    else g
  | "down" =>
    if g.row < R - 1 then
      let g := { g with row := g.row + 1 }
      { g with offset := ensureVisible R vc g.row g.offset }
    else g
  | "left" =>
    if g.col = 1 then { g with col := 0 }
    else if g.col = 0 ∧ 0 < g.row then
      let g := { g with row := g.row - 1, col := 1 }
      { g with offset := ensureVisible R vc g.row g.offset }
    else g
  | "right" =>
    if g.col = 0 then { g with col := 1 }
    else if g.col = 1 ∧ g.row < R - 1 then
      let g := { g with row := g.row + 1, col := 0 }
      { g with offset := ensureVisible R vc g.row g.offset }
    else g
  | "shift+tab" =>
    if g.col = 1 then { g with col := 0 }
    else if g.col = 0 ∧ 0 < g.row then
      let g := { g with row := g.row - 1, col := 1 }
      { g with offset := ensureVisible R vc g.row g.offset }
    else g
  | _ => g

/-- blurAllInputs mirrors the Go method on `ParamsContainer`. -/
def ParamsContainer.blurAllInputs (pc : ParamsContainer) : ParamsContainer :=
  { pc with Inputs := (pc.Inputs.map (fun p =>
      { p with NameFocused := false, ValueFocused := false })) }

/-- focusCurrentInput mirrors the Go method: blur everything, then
focus the name or value input at the focus cursor. -/
def ParamsContainer.focusCurrentInput (pc : ParamsContainer) : ParamsContainer :=
  let pc := pc.blurAllInputs
  if pc.focusedRow < pc.Inputs.length then
    if pc.focusedCol = 0 then
      { pc with Inputs := (updateAt pc.focusedRow
          (fun p => { p with NameFocused := true }) pc.Inputs) }
    else
      { pc with Inputs := (updateAt pc.focusedRow
          (fun p => { p with ValueFocused := true }) pc.Inputs) }
  else pc

/-- ensureFocusedInputVisible mirrors the Go method, via
`ensureVisible` at the container's own row and displayable counts. -/
def ParamsContainer.ensureFocusedInputVisible (pc : ParamsContainer) : ParamsContainer :=
  { pc with scrollOffset :=
      ensureVisible numParamRows pc.getNumDisplayableInputRows pc.focusedRow pc.scrollOffset }

/-- SetActive mirrors the Go method on `ParamsContainer`. -/
def ParamsContainer.SetActive (pc : ParamsContainer) (active : Bool) : ParamsContainer :=
  let pc := { pc with Active := active }
  if active then pc.ensureFocusedInputVisible.focusCurrentInput
  else pc.blurAllInputs

/-- Update mirrors the Go key handler of `ParamsContainer`: inactive
containers ignore input; navigation keys move the cursor via `gridNav`
and refocus the cursor's input; any other key is delivered to the
focused text input (modelled as appending to its text). -/
def ParamsContainer.Update (pc : ParamsContainer) (key : String) : ParamsContainer :=
  if !pc.Active then pc
  else if key = keyUp ∨ key = keyDown ∨ key = keyLeft ∨ key = keyRight ∨
      key = keyShiftTab then
    let g := gridNav numParamRows pc.getNumDisplayableInputRows key
      { row := pc.focusedRow, col := pc.focusedCol, offset := pc.scrollOffset }
    ({ pc with focusedRow := g.row, focusedCol := g.col, scrollOffset := g.offset
      : ParamsContainer }).focusCurrentInput
  else if pc.focusedRow < pc.Inputs.length then
    if pc.focusedCol = 0 then
      { pc with Inputs := (updateAt pc.focusedRow
          (fun p => { p with NameText := p.NameText ++ key }) pc.Inputs) }
    else
      { pc with Inputs := (updateAt pc.focusedRow
          (fun p => { p with ValueText := p.ValueText ++ key }) pc.Inputs) }
  else pc

/-- GetParams mirrors the Go method: iterate all rows; a row writes
`params[TrimSpace(name)] = TrimSpace(value)` exactly when its trimmed
name is non-empty (Go `strings.TrimSpace` is modelled by
`String.trim`). -/
def ParamsContainer.GetParams (pc : ParamsContainer) : String → Option String :=
  pc.Inputs.foldl (fun m p =>
    if p.NameText.trim ≠ "" then
      fun x => if x = p.NameText.trim then some p.ValueText.trim else m x
    else m) (fun _ => none)

/-! ### URL validation (`ui/validator.go`)

`validateURL` rejects empty strings, strings containing whitespace, and
strings not matched by an anchored regular expression, and finally
bounds-checks a port number if one is found.  The regular expression is
embedded literally as a regex value and matching is decided with
Brzozowski derivatives. -/

/-- Regular expressions over characters, with character classes given
by Boolean predicates. -/
inductive Rx where
  | emp : Rx
  | eps : Rx
  | cls : (Char → Bool) → Rx
  | cat : Rx → Rx → Rx
  | alt : Rx → Rx → Rx
  | star : Rx → Rx

/-- Nullability: does the regex accept the empty string? -/
def Rx.nullable : Rx → Bool
  | .emp => false
  | .eps => true
  | .cls _ => false
  | .cat r s => r.nullable && s.nullable
  | .alt r s => r.nullable || s.nullable
  | .star _ => true

/-- Brzozowski derivative with respect to one character. -/
def Rx.deriv : Rx → Char → Rx
  | .emp, _ => .emp
  | .eps, _ => .emp
  | .cls p, c => if p c then .eps else .emp
  | .cat r s, c =>
    if r.nullable then .alt (.cat (r.deriv c) s) (s.deriv c)
    else .cat (r.deriv c) s
  | .alt r s, c => .alt (r.deriv c) (s.deriv c)
  | .star r, c => .cat (r.deriv c) (.star r)

/-- Full (anchored) match of a character list. -/
def Rx.matchList (r : Rx) (l : List Char) : Bool :=
  (l.foldl Rx.deriv r).nullable

/-- Literal regex for a fixed character sequence. -/
def litRx (l : List Char) : Rx :=
  l.foldr (fun c r => .cat (.cls (fun x => x == c)) r) .eps

/-- Optional occurrence (`?`). -/
def optRx (r : Rx) : Rx := .alt .eps r

/-- One or more occurrences (`+`). -/
def plusRx (r : Rx) : Rx := .cat r (.star r)

/-- Character range test on code points, as a `Bool`. -/
def charBetween (lo hi c : Char) : Bool :=
  Nat.ble lo.toNat c.toNat && Nat.ble c.toNat hi.toNat

/-- Go character class `[a-zA-Z0-9]`. -/
def goAlnum (c : Char) : Bool :=
  charBetween 'a' 'z' c || charBetween 'A' 'Z' c || charBetween '0' '9' c

/-- Go character class `[a-zA-Z]`. -/
def goAlpha (c : Char) : Bool :=
  charBetween 'a' 'z' c || charBetween 'A' 'Z' c

/-- Go character class `[0-9]`. -/
def goDigit (c : Char) : Bool := charBetween '0' '9' c

/-- Go character class `[-\.]`. -/
def goDashDot (c : Char) : Bool := c == '-' || c == '.'

/-- Go character class `[a-zA-Z0-9-]`. -/
def goAlnumDash (c : Char) : Bool := goAlnum c || c == '-'

/-- Go character class `[^?#]`. -/
def goNotQueryHash (c : Char) : Bool := !(c == '?' || c == '#')

/-- Go character class `[^#]`. -/
def goNotHash (c : Char) : Bool := !(c == '#')

/-- Go wildcard `.` (the inputs contain no newline by the time the
pattern is tried, since whitespace was already rejected). -/
def goAnyChar (_ : Char) : Bool := true

/-- Go Perl class `\s` as implemented by RE2: `[\t\n\f\r ]`. -/
def isGoSpace (c : Char) : Bool :=
  c == '\t' || c == '\n' || c == '\x0c' || c == '\r' || c == ' '

/-- The validator pattern
`^(http|https)://[a-zA-Z0-9]+([-\.][a-zA-Z0-9-]+)*\.[a-zA-Z]{2,}(:[0-9]{1,5})?(\/[^?#]*)?(\?[^#]*)?(#.*)?$`
assembled sub-expression by sub-expression in source order.  `{2,}` is
`rr r*` and `{1,5}` is `r(r(r(r(r)?)?)?)?`. -/
def urlRx : Rx :=
  .cat (.alt (litRx ['h','t','t','p']) (litRx ['h','t','t','p','s']))
  (.cat (litRx [':','/','/'])
  (.cat (plusRx (.cls goAlnum))
  (.cat (.star (.cat (.cls goDashDot) (plusRx (.cls goAlnumDash))))
  (.cat (.cls (fun c => c == '.'))
  (.cat (.cat (.cls goAlpha) (.cat (.cls goAlpha) (.star (.cls goAlpha))))
  (.cat (optRx (.cat (.cls (fun c => c == ':'))
    (.cat (.cls goDigit) (optRx (.cat (.cls goDigit) (optRx (.cat (.cls goDigit)
      (optRx (.cat (.cls goDigit) (optRx (.cls goDigit)))))))))))
  (.cat (optRx (.cat (.cls (fun c => c == '/')) (.star (.cls goNotQueryHash))))
  (.cat (optRx (.cat (.cls (fun c => c == '?')) (.star (.cls goNotHash))))
  (optRx (.cat (.cls (fun c => c == '#')) (.star (.cls goAnyChar))))))))))))

/-- The leftmost match of `:([0-9]+)`: scan for the first `':'` that is
followed by at least one digit and capture the maximal digit run after
it (Go `FindStringSubmatch` with a greedy `[0-9]+`). -/
def findPortDigits : List Char → Option (List Char)
  | [] => none
  | c :: rest =>
    if c == ':' ∧ ¬(rest.takeWhile goDigit).isEmpty then
      some (rest.takeWhile goDigit)
    else findPortDigits rest

/-- Decimal value of a digit run, mirroring the Go accumulation
`portNum = portNum*10 + int(digit-'0')` (the length is checked to be at
most 5 first, so machine overflow cannot occur and `Nat` is exact). -/
def portVal (l : List Char) : Nat :=
  l.foldl (fun n c => n * 10 + (c.toNat - 48)) 0

/-- validateURL mirrors the Go function, on the character list of the
URL string. -/
def validateURLChars (url : List Char) : Bool :=
  if url.isEmpty then false
  else if url.any isGoSpace then false
  else if !(urlRx.matchList url) then false
  else match findPortDigits url with
    | some port =>
      if port.length > 5 then false
      else if portVal port > 65535 then false
      else true
    | none => true

/-- validateURL on Go strings. -/
def validateURL (url : String) : Bool := validateURLChars url.toList

/-! ### Remaining leaf components -/

/-- URLInput (`unnamed/part_004`, first snapshot): the text input is
modelled by its text and the component's `Active` flag (the inner
focus always tracks `Active` via `SetActive`). -/
structure URLInput where
  Text : String
  Active : Bool
deriving Repr, DecidableEq

/-- NewURLInput mirrors the Go constructor: initially focused. -/
def NewURLInput : URLInput := { Text := "", Active := true }

/-- SetActive mirrors the Go method on `URLInput`. -/
def URLInput.SetActive (u : URLInput) (active : Bool) : URLInput :=
  { u with Active := active }

/-- GetText mirrors the Go method. -/
def URLInput.GetText (u : URLInput) : String := u.Text

/-- Update mirrors the Go method: the inner text input processes keys
only when active; arrow keys move the cursor (not modelled) and other
keys edit the text, modelled as appending. -/
def URLInput.Update (u : URLInput) (key : String) : URLInput :=
  if u.Active then
    if key = keyUp ∨ key = keyDown ∨ key = keyLeft ∨ key = keyRight ∨ key = keyEnter
    then u
    else { u with Text := u.Text ++ key }
  else u

/-- SubmitButton (`unnamed/part_011`). -/
structure SubmitButton where
  Active : Bool
deriving Repr, DecidableEq

/-- NewButton mirrors the Go constructor (the label is fixed by the
caller and not used by any claim). -/
def NewButton : SubmitButton := { Active := false }

/-- SetActive mirrors the Go method on `SubmitButton`. -/
def SubmitButton.SetActive (b : SubmitButton) (active : Bool) : SubmitButton :=
  { b with Active := active }

/-- Update mirrors the Go method: pressed exactly when active and the
key is `enter`; returns whether the button was submitted. -/
def SubmitButton.Update (b : SubmitButton) (key : String) : Bool :=
  b.Active ∧ key = keyEnter

/-- Toast (`ui/components/toast.go`). -/
structure Toast where
  Message : String
  Visible : Bool
  Dismissed : Bool
deriving Repr, DecidableEq

/-- NewToast mirrors the Go constructor. -/
def NewToast : Toast := { Message := "", Visible := false, Dismissed := false }

/-- Show mirrors the Go method. -/
def Toast.Show (t : Toast) (message : String) : Toast :=
  { t with Message := message, Visible := true }

/-- Hide mirrors the Go method. -/
def Toast.Hide (_ : Toast) : Toast :=
  { Message := "", Visible := false, Dismissed := false }

/-- Spinner (`unnamed/part_005`); animation frames and geometry are
not part of the modelled state. -/
structure Spinner where
  Visible : Bool
  Message : String
deriving Repr, DecidableEq

/-- NewSpinner mirrors the Go constructor. -/
def NewSpinner : Spinner := { Visible := false, Message := "Loading..." }

/-- Show mirrors the Go method (the returned tick command is modelled
at the `App` level). -/
def Spinner.Show (s : Spinner) (message : String) : Spinner :=
  { Visible := true
    Message := if message ≠ "" then message else s.Message }

/-- Hide mirrors the Go method. -/
def Spinner.Hide (s : Spinner) : Spinner := { s with Visible := false }

/-- HeadersContainer (`ui/components/headers_container.go`): the
response-headers display pane. -/
structure HeadersContainer where
  Content : String
  rawContent : String
  Active : Bool
deriving Repr, DecidableEq

/-- NewHeadersContainer mirrors the Go constructor. -/
def NewHeadersContainer : HeadersContainer :=
  { Content := "Response headers will be displayed here."
    rawContent := "Response headers will be displayed here."
    Active := false }

/-- SetContent mirrors the Go method. -/
def HeadersContainer.SetContent (h : HeadersContainer) (content : String) :
    HeadersContainer :=
  { h with Content := content, rawContent := content }

/-- SetActive mirrors the Go method on `HeadersContainer`. -/
def HeadersContainer.SetActive (h : HeadersContainer) (active : Bool) :
    HeadersContainer :=
  { h with Active := active }

/-- BodyContainer (`ui/components/body_container.go`): the scrollable
response-body viewport.  The external `viewport.Model` is modelled by
its content and line offset. -/
structure BodyContainer where
  rawContent : String
  ViewportContent : String
  ViewportYOffset : Nat
  Width : Int
  Height : Int
  Active : Bool
deriving Repr, DecidableEq

/-- NewBodyContainer mirrors the Go constructor. -/
def NewBodyContainer : BodyContainer :=
  { rawContent := "Response body will be displayed here."
    ViewportContent := "Response body will be displayed here."
    ViewportYOffset := 0
    Width := 0
    Height := 0
    Active := false }

/-- wrapText on Go strings (helper for `BodyContainer.SetContent`). -/
def wrapTextS (content : String) (width : Int) : String :=
  String.mk (wrapText content.toList width)

/-- SetContent mirrors the Go method: store the raw content; with
valid dimensions, wrap to `Width - 4` and reset the scroll position,
otherwise store the content unwrapped. -/
def BodyContainer.SetContent (b : BodyContainer) (content : String) : BodyContainer :=
  let b := { b with rawContent := content }
  if b.Width > 0 ∧ b.Height > 0 then
    { b with ViewportContent := wrapTextS content (b.Width - 4), ViewportYOffset := 0 }
  else
    { b with ViewportContent := content }

/-- SetActive mirrors the Go method on `BodyContainer`. -/
def BodyContainer.SetActive (b : BodyContainer) (active : Bool) : BodyContainer :=
  { b with Active := active }

/-- Line count of the viewport content (Go
`viewport.TotalLineCount`). -/
def BodyContainer.totalLineCount (b : BodyContainer) : Nat :=
  (splitNl b.ViewportContent.toList).length

/-- Update mirrors the key handling of `BodyContainer` restricted to
the modelled state: `y` copies to the clipboard collaborator (no state
change), `home`/`end` jump, arrows step the viewport offset, clamped to
the available lines. -/
def BodyContainer.Update (b : BodyContainer) (key : String) : BodyContainer :=
  if !b.Active then b
  else
    let maxOff := b.totalLineCount - (b.Height - 2).toNat
    match key with
    | "home" => { b with ViewportYOffset := 0 }
    | "end" => { b with ViewportYOffset := maxOff }
    | "up" => { b with ViewportYOffset := b.ViewportYOffset - 1 }
    | "down" => { b with ViewportYOffset := min (b.ViewportYOffset + 1) maxOff }
    | _ => b

/-! ### AuthSelector and AuthContainer (`ui/components/auth_container.go`)

The auth-type selector is the one dropdown in the sources with a
separate highlighted index.  The detail components are modelled by
their activation flags (their text fields are not used by any claim). -/

/-- authTypeOptions mirrors the Go list. -/
def authTypeOptions : List String :=
  ["None", "Basic", "Bearer", "JWT", "OAuth2", "API Key"]

/-- AuthSelector mirrors the Go struct. -/
structure AuthSelector where
  options : List String
  selectedIndex : Nat
  highlightedIndex : Nat
  isOpen : Bool
  active : Bool
deriving Repr, DecidableEq

/-- NewAuthSelector mirrors the Go constructor. -/
def NewAuthSelector : AuthSelector :=
  { options := authTypeOptions, selectedIndex := 0, highlightedIndex := 0
    isOpen := false, active := false }

/-- SetActive mirrors the Go method on `AuthSelector`. -/
def AuthSelector.SetActive (as : AuthSelector) (active : Bool) : AuthSelector :=
  { as with active := active }

/-- Update mirrors the Go key handler of `AuthSelector` (its keymap:
open = enter/space, close = esc, next = down/j, prev = up/k,
select = enter). -/
def AuthSelector.Update (as : AuthSelector) (key : String) : AuthSelector :=
  if !as.active then as
  else if as.isOpen then
    if key = keyEsc then
      { as with isOpen := false, highlightedIndex := as.selectedIndex }
    else if key = keyDown ∨ key = "j" then
      { as with highlightedIndex := (as.highlightedIndex + 1) % as.options.length }
    else if key = keyUp ∨ key = "k" then
      { as with highlightedIndex :=
          ((as.highlightedIndex + as.options.length - 1) % as.options.length) }
    else if key = keyEnter then
      { as with selectedIndex := as.highlightedIndex, isOpen := false }
    else as
  else
    if key = keyEnter ∨ key = " " then
      { as with isOpen := true, highlightedIndex := as.selectedIndex }
    else as

/-- AuthContainer mirrors the Go struct; each detail component is
modelled by its activation flag. -/
structure AuthContainer where
  Active : Bool
  authSelector : AuthSelector
  basicActive : Bool
  tokenActive : Bool
  jwtActive : Bool
  apiKeyActive : Bool
  oauth2Active : Bool
deriving Repr, DecidableEq

/-- NewAuthContainer mirrors the Go constructor. -/
def NewAuthContainer : AuthContainer :=
  { Active := false, authSelector := NewAuthSelector
    basicActive := false, tokenActive := false, jwtActive := false
    apiKeyActive := false, oauth2Active := false }

/-- SetActive mirrors the Go method on `AuthContainer`: propagate to
the selector, deactivate all detail components, then activate the one
matching the selected auth type (none when "None" is selected). -/
def AuthContainer.SetActive (ac : AuthContainer) (active : Bool) : AuthContainer :=
  let ac := { ac with Active := active
                      authSelector := ac.authSelector.SetActive active
                      basicActive := false, tokenActive := false, jwtActive := false
                      apiKeyActive := false, oauth2Active := false }
  if active then
    let selectedType := nthD ac.authSelector.options ac.authSelector.selectedIndex emptyString
    if selectedType = "Basic" then { ac with basicActive := true }
    else if selectedType = "Bearer" then { ac with tokenActive := true }
    else if selectedType = "JWT" then { ac with jwtActive := true }
    else if selectedType = "API Key" then { ac with apiKeyActive := true }
    else if selectedType = "OAuth2" then { ac with oauth2Active := true }
    else ac
  else ac

/-- Update mirrors the Go method restricted to the modelled state:
inactive containers ignore input; otherwise the selector processes the
key and the active detail component is re-derived (detail text editing
is not part of the modelled state). -/
def AuthContainer.Update (ac : AuthContainer) (key : String) : AuthContainer :=
  if !ac.Active then ac
  else
    let ac := { ac with authSelector := ac.authSelector.Update key }
    ac.SetActive ac.Active

/-! ### QueryTab (`ui/components/query_tab.go`) -/

/-- QueryTab mirrors the Go struct; the request-body `textarea` is
modelled by its text and focus flag. -/
structure QueryTab where
  InnerTabs : List String
  ActiveInnerTab : Nat
  Active : Bool
  ParamsInput : ParamsContainer
  AuthInput : AuthContainer
  HeadersInput : HeadersInputContainer
  QueryBodyText : String
  QueryBodyFocused : Bool
deriving Repr, DecidableEq

/-- NewQueryTab mirrors the Go constructor. -/
def NewQueryTab : QueryTab :=
  { InnerTabs := ["Params", "Auth", "Headers", "Body"]
    ActiveInnerTab := 0
    Active := false
    ParamsInput := NewParamsContainer
    AuthInput := NewAuthContainer
    HeadersInput := NewHeadersInputContainer
    QueryBodyText := ""
    QueryBodyFocused := false }

/-- updateFocus mirrors the Go method: dispatch on the name of the
active inner tab; exactly the matching child is activated when the
QueryTab is active, every other child (and every child when it is
inactive or the index is out of range) is deactivated. -/
def QueryTab.updateFocus (q : QueryTab) : QueryTab :=
  let name := nthD q.InnerTabs q.ActiveInnerTab emptyString
  let isParamsActive := q.Active ∧ name = "Params"
  let isAuthActive := q.Active ∧ name = "Auth"
  let isBodyActive := q.Active ∧ name = "Body"
  let isHeadersActive := q.Active ∧ name = "Headers"
  if isParamsActive then
    { q with ParamsInput := q.ParamsInput.SetActive true
             AuthInput := q.AuthInput.SetActive false
             QueryBodyFocused := false
             HeadersInput := q.HeadersInput.SetActive false }
  else if isAuthActive then
    { q with ParamsInput := q.ParamsInput.SetActive false
             AuthInput := q.AuthInput.SetActive true
             QueryBodyFocused := false
             HeadersInput := q.HeadersInput.SetActive false }
  else if isBodyActive then
    { q with ParamsInput := q.ParamsInput.SetActive false
             AuthInput := q.AuthInput.SetActive false
             QueryBodyFocused := true
             HeadersInput := q.HeadersInput.SetActive false }
  else if isHeadersActive then
    { q with ParamsInput := q.ParamsInput.SetActive false
             AuthInput := q.AuthInput.SetActive false
             QueryBodyFocused := false
             HeadersInput := q.HeadersInput.SetActive true }
  else
    { q with ParamsInput := q.ParamsInput.SetActive false
             AuthInput := q.AuthInput.SetActive false
             QueryBodyFocused := false
             HeadersInput := q.HeadersInput.SetActive false }

/-- SetActive mirrors the Go method on `QueryTab`. -/
def QueryTab.SetActive (q : QueryTab) (active : Bool) : QueryTab :=
  ({ q with Active := active }).updateFocus

/-- SwitchToInnerTab mirrors the Go method: in-range indices blur the
currently active inner component, install the new index, and re-derive
focus; out-of-range indices change nothing. -/
def QueryTab.SwitchToInnerTab (q : QueryTab) (tabIndex : Nat) : QueryTab :=
  if tabIndex < q.InnerTabs.length then
    let currentActiveTabName := nthD q.InnerTabs q.ActiveInnerTab emptyString
    let q :=
      if currentActiveTabName = "Params" then
        { q with ParamsInput := (q.ParamsInput.blurAllInputs.SetActive false) }
      else if currentActiveTabName = "Auth" then
        { q with AuthInput := q.AuthInput.SetActive false }
      else if currentActiveTabName = "Body" then
        { q with QueryBodyFocused := false }
      else if currentActiveTabName = "Headers" then
        { q with HeadersInput := q.HeadersInput.SetActive false }
      else q
    ({ q with ActiveInnerTab := tabIndex }).updateFocus
  else q

/-- NextTab mirrors the Go method. -/
def QueryTab.NextTab (q : QueryTab) : QueryTab :=
  q.SwitchToInnerTab ((q.ActiveInnerTab + 1) % q.InnerTabs.length)

/-- PrevTab mirrors the Go method. -/
def QueryTab.PrevTab (q : QueryTab) : QueryTab :=
  q.SwitchToInnerTab ((q.ActiveInnerTab + q.InnerTabs.length - 1) % q.InnerTabs.length)

/-- Update mirrors the key handling of `QueryTab`: when active,
`tab`/`shift+tab` cycle the inner tabs and are absorbed; any other key
is delegated to the active inner component (the body textarea consumes
editing keys when focused, modelled as appending). -/
def QueryTab.Update (q : QueryTab) (key : String) : QueryTab :=
  if q.Active then
    let currentInnerTab := nthD q.InnerTabs q.ActiveInnerTab emptyString
    if key = keyTab then q.NextTab
    else if key = keyShiftTab then q.PrevTab
    else if currentInnerTab = "Params" ∧ q.ParamsInput.Active then
      { q with ParamsInput := q.ParamsInput.Update key }
    else if currentInnerTab = "Auth" ∧ q.AuthInput.Active then
      { q with AuthInput := q.AuthInput.Update key }
    else if currentInnerTab = "Headers" ∧ q.HeadersInput.Active then
      { q with HeadersInput := q.HeadersInput.Update key }
    else if currentInnerTab = "Body" ∧ q.QueryBodyFocused then
      { q with QueryBodyText := q.QueryBodyText ++ key }
    else q
  else q

/-! ### ResultTab (`ui/components/body_container.go`, second part) -/

/-- ResultTab mirrors the Go struct. -/
structure ResultTab where
  InnerTabs : List String
  ActiveInnerTab : Nat
  Active : Bool
  HeadersTab : HeadersContainer
  BodyTab : BodyContainer
deriving Repr, DecidableEq

/-- NewResultTab mirrors the Go constructor. -/
def NewResultTab : ResultTab :=
  { InnerTabs := ["Headers", "Body"]
    ActiveInnerTab := 0
    Active := false
    HeadersTab := NewHeadersContainer
    BodyTab := NewBodyContainer }

/-- SetActive mirrors the Go method on `ResultTab`: the child selected
by `ActiveInnerTab` receives the flag, the other child is
deactivated. -/
def ResultTab.SetActive (r : ResultTab) (active : Bool) : ResultTab :=
  let r := { r with Active := active }
  if r.ActiveInnerTab = 0 then
    { r with HeadersTab := r.HeadersTab.SetActive active
             BodyTab := r.BodyTab.SetActive false }
  else
    { r with HeadersTab := r.HeadersTab.SetActive false
             BodyTab := r.BodyTab.SetActive active }

/-- SwitchToInnerTab mirrors the Go method: in-range indices install
the index and, when the ResultTab is active, activate exactly the
selected child; when inactive the children are left untouched. -/
def ResultTab.SwitchToInnerTab (r : ResultTab) (tabIndex : Nat) : ResultTab :=
  if tabIndex < r.InnerTabs.length then
    let r := { r with ActiveInnerTab := tabIndex }
    if r.Active then
      if tabIndex = 0 then
        { r with HeadersTab := r.HeadersTab.SetActive true
                 BodyTab := r.BodyTab.SetActive false }
      else
        { r with HeadersTab := r.HeadersTab.SetActive false
                 BodyTab := r.BodyTab.SetActive true }
    else r
  else r

/-- NextTab mirrors the Go method. -/
def ResultTab.NextTab (r : ResultTab) : ResultTab :=
  r.SwitchToInnerTab ((r.ActiveInnerTab + 1) % r.InnerTabs.length)

/-- PrevTab mirrors the Go method. -/
def ResultTab.PrevTab (r : ResultTab) : ResultTab :=
  r.SwitchToInnerTab ((r.ActiveInnerTab + r.InnerTabs.length - 1) % r.InnerTabs.length)

/-- Update mirrors the key handling of `ResultTab`. -/
def ResultTab.Update (r : ResultTab) (key : String) : ResultTab :=
  if !r.Active then r
  else if key = keyTab then r.NextTab
  else if key = keyShiftTab then r.PrevTab
  else if r.ActiveInnerTab = 0 then r
  else { r with BodyTab := r.BodyTab.Update key }

/-- SetHeadersContent mirrors the Go method. -/
def ResultTab.SetHeadersContent (r : ResultTab) (content : String) : ResultTab :=
  { r with HeadersTab := r.HeadersTab.SetContent content }

/-- SetBodyContent mirrors the Go method. -/
def ResultTab.SetBodyContent (r : ResultTab) (content : String) : ResultTab :=
  { r with BodyTab := r.BodyTab.SetContent content }

/-! ### TabsContainer (`unnamed/part_004`, second snapshot) -/

/-- TabsContainer mirrors the Go struct. -/
structure TabsContainer where
  Tabs : List String
  ActiveTab : Nat
  Active : Bool
  QueryTab : LazyPost.QueryTab
  ResultTab : LazyPost.ResultTab
deriving Repr, DecidableEq

/-- NewTabsContainer mirrors the Go constructor. -/
def NewTabsContainer : TabsContainer :=
  { Tabs := ["Query", "Result"]
    ActiveTab := 0
    Active := false
    QueryTab := NewQueryTab
    ResultTab := NewResultTab }

/-- SetActive mirrors the Go method on `TabsContainer`: the flag is
propagated to both inner tab components, regardless of which main tab
is selected. -/
def TabsContainer.SetActive (t : TabsContainer) (active : Bool) : TabsContainer :=
  { t with Active := active
           QueryTab := t.QueryTab.SetActive active
           ResultTab := t.ResultTab.SetActive active }

/-- SwitchToTab mirrors the Go method. -/
def TabsContainer.SwitchToTab (t : TabsContainer) (tabIndex : Nat) : TabsContainer :=
  if tabIndex < t.Tabs.length then { t with ActiveTab := tabIndex } else t

/-- Update mirrors the key handling of `TabsContainer`: `alt+4`/`alt+5`
switch the main tab; everything else is delegated to the active main
tab's component. -/
def TabsContainer.Update (t : TabsContainer) (key : String) : TabsContainer :=
  if !t.Active then t
  else if key = "alt+4" then t.SwitchToTab 0
  else if key = "alt+5" then t.SwitchToTab 1
  else if t.ActiveTab = 0 then { t with QueryTab := t.QueryTab.Update key }
  else if t.ActiveTab = 1 then { t with ResultTab := t.ResultTab.Update key }
  else t

/-! ### App (`ui/app.go`, first snapshot, and `unnamed/part_013`) -/

/-- Commands an update step can emit, modelling the `tea.Cmd` values
relevant to the claims: quitting the program and dispatching the
asynchronous HTTP request (whose completion delivers a
`RequestCompleteMsg`). -/
inductive AppCmd where
  | quit : AppCmd
  | request : AppCmd
deriving Repr, DecidableEq

/-- RequestCompleteMsg mirrors the Go message struct; the Go `error`
field is modelled as an optional error text. -/
structure RequestCompleteMsg where
  Headers : String
  Body : String
  Error : Option String
deriving Repr, DecidableEq

/-- App mirrors the Go struct (geometry caches are omitted). -/
structure App where
  methodSelector : MethodSelector
  urlInput : URLInput
  submitButton : SubmitButton
  tabContainer : TabsContainer
  toast : Toast
  spinner : Spinner
deriving Repr, DecidableEq

/-- NewApp mirrors the Go constructor. -/
def NewApp : App :=
  { methodSelector := NewMethodSelector
    urlInput := NewURLInput
    submitButton := NewButton
    tabContainer := NewTabsContainer
    toast := NewToast
    spinner := NewSpinner }

/-- Focus targets mirror the Go `focusTarget` constants. -/
inductive FocusTarget where
  | focusMethod : FocusTarget
  | focusURL : FocusTarget
  | focusSubmit : FocusTarget
  | focusQuery : FocusTarget
  | focusResult : FocusTarget
  | focusNone : FocusTarget
deriving Repr, DecidableEq

/-- setFocus mirrors the Go helper: deactivate every top-level widget,
then activate the target (the query/result targets first switch the
main tab, then activate the tab container). -/
def App.setFocus (a : App) (target : FocusTarget) : App :=
  let a := { a with methodSelector := a.methodSelector.SetActive false
                    urlInput := a.urlInput.SetActive false
                    submitButton := a.submitButton.SetActive false
                    tabContainer := a.tabContainer.SetActive false }
  match target with
  | .focusMethod => { a with methodSelector := a.methodSelector.SetActive true }
  | .focusURL => { a with urlInput := a.urlInput.SetActive true }
  | .focusQuery =>
    let a := { a with tabContainer := a.tabContainer.SwitchToTab 0 }
    { a with tabContainer := a.tabContainer.SetActive true }
  | .focusResult =>
    let a := { a with tabContainer := a.tabContainer.SwitchToTab 1 }
    { a with tabContainer := a.tabContainer.SetActive true }
  | _ => a

/-- Message shown by `handleSubmit` for an invalid URL. -/
def invalidURLMessage : String := "Invalid URL: The Provided URL is not valid."

/-- Message shown on the spinner while a request is in flight. -/
def sendingRequestText : String := "Sending request..."

/-- handleSubmit mirrors `unnamed/part_013`: an invalid URL raises the
toast, focuses the URL input, deactivates everything else and emits no
command; a valid URL blurs the top-level widgets, shows the spinner and
dispatches the request (for a URL accepted by `validateURL`,
`url.Parse` succeeds, so the Go safeguard branch for a parse failure is
unreachable and not modelled). -/
def App.handleSubmit (a : App) : App × Option AppCmd :=
  let rawURL := a.urlInput.GetText
  let isValid := validateURL rawURL
  if !isValid then
    let a := { a with toast := a.toast.Show invalidURLMessage
                      methodSelector := a.methodSelector.SetActive false
                      urlInput := a.urlInput.SetActive true
                      submitButton := a.submitButton.SetActive false
                      tabContainer := a.tabContainer.SetActive false }
    (a, none)
  else
    let a := { a with methodSelector := a.methodSelector.SetActive false
                      urlInput := a.urlInput.SetActive false
                      submitButton := a.submitButton.SetActive false }
    let a := { a with spinner := a.spinner.Show sendingRequestText }
    (a, some .request)

/-- handleRequestCompleteMsg mirrors the Go method of the first
`ui/app.go` snapshot: hide the spinner; on error show the toast and
focus the URL input; then — with no early return in this snapshot —
overwrite the result tabs with the message's headers and body,
activate the tab container, switch to the Result main tab, select the
Headers inner tab and activate the result tab. -/
def App.handleRequestCompleteMsg (a : App) (msg : RequestCompleteMsg) : App :=
  let a := { a with spinner := a.spinner.Hide }
  let a :=
    match msg.Error with
    | some e =>
      { a with toast := a.toast.Show ("Error: " ++ e)
               methodSelector := a.methodSelector.SetActive false
               urlInput := a.urlInput.SetActive true
               submitButton := a.submitButton.SetActive false
               tabContainer := a.tabContainer.SetActive false }
    | none => a
  let a := { a with tabContainer := { a.tabContainer with
    ResultTab := ((a.tabContainer.ResultTab.SetHeadersContent msg.Headers).SetBodyContent msg.Body) } }
  let a := { a with tabContainer := a.tabContainer.SetActive true }
  let a := { a with tabContainer := a.tabContainer.SwitchToTab 1 }
  let a := { a with tabContainer := { a.tabContainer with
    ResultTab := a.tabContainer.ResultTab.SwitchToInnerTab 0 } }
  { a with tabContainer := { a.tabContainer with
    ResultTab := a.tabContainer.ResultTab.SetActive true } }

/-- handleKeyMsg mirrors the Go method of the first `ui/app.go`
snapshot: toast dismissal on `enter`; the Alt-rune aliases; then the
keymap `switch` — quit (`ctrl+c`/`esc`) first, the focus hotkeys, the
tab-cycle keys (consumed only by an active tab container), and finally
delegation to the single active component, where `enter` in the URL
field or on the submit button triggers the submit action. -/
def App.handleKeyMsg (a : App) (key : String) : App × Option AppCmd :=
  if a.toast.Visible ∧ key = keyEnter then
    ({ a with toast := a.toast.Hide
              methodSelector := a.methodSelector.SetActive false
              urlInput := a.urlInput.SetActive true
              submitButton := a.submitButton.SetActive false
              tabContainer := a.tabContainer.SetActive false }, none)
  else if key = "¡" then (a.setFocus .focusMethod, none)
  else if key = "™" then (a.setFocus .focusURL, none)
  else if key = "£" then (a.setFocus .focusQuery, none)
  else if key = "¢" then (a.setFocus .focusResult, none)
  else if key = "∞" then a.handleSubmit
  else if key = keyCtrlC ∨ key = keyEsc then (a, some .quit)
  else if key = "alt+1" then (a.setFocus .focusMethod, none)
  else if key = "alt+2" then (a.setFocus .focusURL, none)
  else if key = "alt+5" then a.handleSubmit
  else if key = "alt+3" then (a.setFocus .focusQuery, none)
  else if key = "alt+4" then (a.setFocus .focusResult, none)
  else if key = keyTab ∨ key = keyShiftTab then
    if a.tabContainer.Active then
      ({ a with tabContainer := a.tabContainer.Update key }, none)
    else (a, none)
  else if a.methodSelector.Active then
    ({ a with methodSelector := a.methodSelector.Update key }, none)
  else if a.urlInput.Active then
    let a := { a with urlInput := a.urlInput.Update key }
    if key = keyEnter then a.handleSubmit else (a, none)
  else if a.submitButton.Active then
    if a.submitButton.Update key then a.handleSubmit else (a, none)
  else if a.tabContainer.Active then
    ({ a with tabContainer := a.tabContainer.Update key }, none)
  else (a, none)

/-! ### Activation operations and focus bookkeeping

The activation entry points the sources invoke on the widget tree:
`App.setFocus`, `SetActive` on the tab containers, and the tab
switches.  Leaf widgets are counted at the granularity of the
components that directly own keyboard focus: the three top-level
widgets, the four children of the query tab and the two children of
the result tab. -/

/-- The activation operations of the specification: `setFocus`,
`SetActive` on the (tab) containers, and tab switches. -/
inductive ActivationOp where
  | appSetFocus : FocusTarget → ActivationOp
  | tabsSetActive : Bool → ActivationOp
  | tabsSwitchToTab : Nat → ActivationOp
  | querySetActive : Bool → ActivationOp
  | querySwitchInner : Nat → ActivationOp
  | queryNextTab : ActivationOp
  | queryPrevTab : ActivationOp
  | resultSetActive : Bool → ActivationOp
  | resultSwitchInner : Nat → ActivationOp
  | resultNextTab : ActivationOp
  | resultPrevTab : ActivationOp
deriving Repr, DecidableEq

/-- Apply one activation operation to the app state. -/
def applyOp (a : App) : ActivationOp → App
  | .appSetFocus t => a.setFocus t
  | .tabsSetActive b => { a with tabContainer := a.tabContainer.SetActive b }
  | .tabsSwitchToTab i => { a with tabContainer := a.tabContainer.SwitchToTab i }
  | .querySetActive b =>
    { a with tabContainer := { a.tabContainer with
        QueryTab := a.tabContainer.QueryTab.SetActive b } }
  | .querySwitchInner i =>
    { a with tabContainer := { a.tabContainer with
        QueryTab := a.tabContainer.QueryTab.SwitchToInnerTab i } }
  | .queryNextTab =>
    { a with tabContainer := { a.tabContainer with
        QueryTab := a.tabContainer.QueryTab.NextTab } }
  | .queryPrevTab =>
    { a with tabContainer := { a.tabContainer with
        QueryTab := a.tabContainer.QueryTab.PrevTab } }
  | .resultSetActive b =>
    { a with tabContainer := { a.tabContainer with
        ResultTab := a.tabContainer.ResultTab.SetActive b } }
  | .resultSwitchInner i =>
    { a with tabContainer := { a.tabContainer with
        ResultTab := a.tabContainer.ResultTab.SwitchToInnerTab i } }
  | .resultNextTab =>
    { a with tabContainer := { a.tabContainer with
        ResultTab := a.tabContainer.ResultTab.NextTab } }
  | .resultPrevTab =>
    { a with tabContainer := { a.tabContainer with
        ResultTab := a.tabContainer.ResultTab.PrevTab } }

/-- Apply a sequence of activation operations. -/
def applyOps (a : App) (ops : List ActivationOp) : App :=
  ops.foldl applyOp a

/-- Number of active focus-owning children of the query tab. -/
def QueryTab.activeLeafCount (q : QueryTab) : Nat :=
  boolToNat q.ParamsInput.Active + boolToNat q.AuthInput.Active +
    boolToNat q.HeadersInput.Active + boolToNat q.QueryBodyFocused

/-- Number of active focus-owning children of the result tab. -/
def ResultTab.activeLeafCount (r : ResultTab) : Nat :=
  boolToNat r.HeadersTab.Active + boolToNat r.BodyTab.Active

/-- Number of active top-level leaf widgets. -/
def App.topLevelActiveCount (a : App) : Nat :=
  boolToNat a.methodSelector.Active + boolToNat a.urlInput.Active +
    boolToNat a.submitButton.Active

/-- Total number of active focus-owning leaf widgets in the tree. -/
def App.activeLeafCount (a : App) : Nat :=
  a.topLevelActiveCount + a.tabContainer.QueryTab.activeLeafCount +
    a.tabContainer.ResultTab.activeLeafCount

/-- The inner-tab label list of the query tab (a constant in the
sources). -/
def queryInnerTabsList : List String := ["Params", "Auth", "Headers", "Body"]

/-- The inner-tab label list of the result tab. -/
def resultInnerTabsList : List String := ["Headers", "Body"]

/-- Name of the query tab's active inner tab, as dispatched on by the
sources. -/
def QueryTab.tabName (q : QueryTab) : String := nthD q.InnerTabs q.ActiveInnerTab emptyString

/-- Focus invariant of the query tab: each child is active exactly when
the query tab is active and its inner tab is selected. -/
def queryFocusInv (q : QueryTab) : Prop :=
  q.InnerTabs = queryInnerTabsList ∧
  (q.ParamsInput.Active = (q.Active && q.tabName == "Params")) ∧
  (q.AuthInput.Active = (q.Active && q.tabName == "Auth")) ∧
  (q.HeadersInput.Active = (q.Active && q.tabName == "Headers")) ∧
  (q.QueryBodyFocused = (q.Active && q.tabName == "Body"))

/-- Focus invariant of the result tab: each child is active exactly
when the result tab is active and its inner tab is selected. -/
def resultFocusInv (r : ResultTab) : Prop :=
  r.InnerTabs = resultInnerTabsList ∧
  (r.HeadersTab.Active = (r.Active && r.ActiveInnerTab == 0)) ∧
  (r.BodyTab.Active = (r.Active && !(r.ActiveInnerTab == 0)))

/-- Focus invariant of the whole app state. -/
def appFocusInv (a : App) : Prop :=
  a.topLevelActiveCount ≤ 1 ∧
  queryFocusInv a.tabContainer.QueryTab ∧
  resultFocusInv a.tabContainer.ResultTab

/-! ### Concrete states and inputs used by counterexamples and
witnesses -/

/-- A selector-navigation fold: the net effect of a list of `up`/`down`
keys on a directly-committed selection index, modulo the option-list
length. -/
def selNavFold (len : Nat) (sel : Nat) (ks : List String) : Nat :=
  ks.foldl (fun s k =>
    if k = keyDown then (s + 1) % len
    else if k = keyUp then (s + len - 1) % len
    else s) sel

/-- Apply a list of keys to a method selector. -/
def MethodSelector.applyKeys (m : MethodSelector) (ks : List String) : MethodSelector :=
  ks.foldl MethodSelector.Update m

/-- Apply a list of keys to a headers-input container. -/
def HeadersInputContainer.applyKeys (h : HeadersInputContainer) (ks : List String) :
    HeadersInputContainer :=
  ks.foldl HeadersInputContainer.Update h

/-- Apply a list of navigation keys to a grid cursor. -/
def gridApply (R vc : Nat) (g : GridCursor) (ks : List String) : GridCursor :=
  ks.foldl (fun g k => gridNav R vc k g) g

/-- Initial grid cursor: first row, name column, no scroll. -/
def gridInit : GridCursor := { row := 0, col := 0, offset := 0 }

/-- Visibility invariant of the grid scroll window. -/
def gridInv (R vc : Nat) (g : GridCursor) : Prop :=
  g.row < R ∧ g.offset ≤ g.row ∧ g.row < g.offset + vc ∧ g.offset ≤ R - vc

/-- The string "Authorization" (element 5 of `headerOptionsStrings`). -/
def hdrAuthorization : String := "Authorization"

/-- The string "Empty". -/
def hdrEmpty : String := "Empty"

/-- A headers grid whose first row selects "Authorization" and leaves
the value empty. -/
def headersGridAuthNoValue : HeadersInputContainer :=
  { NewHeadersInputContainer with inputs := (updateAt 0
      (fun inp => { inp with SelectedHeader := 5 })
      NewHeadersInputContainer.inputs) }

/-- An app whose URL field holds the invalid URL "notaurl". -/
def appWithNotaurl : App :=
  { NewApp with urlInput := { Text := "notaurl", Active := true } }

/-- An app whose method-selector dropdown is open (reached by focusing
the method selector and pressing `enter`). -/
def appMethodDropdownOpen : App :=
  let a := NewApp.setFocus .focusMethod
  { a with methodSelector := a.methodSelector.Update keyEnter }

/-- Sample response-headers text previously displayed in the result tab. -/
def oldHeadersText : String := "Status: 200 OK"

/-- Sample response-body text previously displayed in the result tab. -/
def oldBodyText : String := "old body"

/-- Sample network-failure error text. -/
def connectionRefusedText : String := "connection refused"

/-- An app that already displays response content in the result tab
(as after a previous successful request). -/
def appWithOldResponse : App :=
  { NewApp with tabContainer := { NewApp.tabContainer with
      ResultTab := ((NewApp.tabContainer.ResultTab.SetHeadersContent
        oldHeadersText).SetBodyContent oldBodyText) } }

/-- A completion message carrying a network error (as built by the Go
request goroutine when `client.Do` fails: headers and body are the
zero-value empty strings). -/
def networkFailureMsg : RequestCompleteMsg :=
  { Headers := "", Body := "", Error := some connectionRefusedText }

/-! ### Helper lemmas -/

theorem splitNl_ne_nil (l : List Char) : splitNl l ≠ [] := by
  induction l with
  | nil => simp [splitNl]
  | cons c rest ih =>
    simp only [splitNl]
    split
    · simp
    · cases h : splitNl rest with
      | nil => exact absurd h ih
      | cons a as => simp

theorem mem_splitNl_no_nl (l : List Char) (p : List Char) (hp : p ∈ splitNl l) :
    '\n' ∉ p := by
  induction l generalizing p with
  | nil =>
    simp [splitNl] at hp
    simp [hp]
  | cons c rest ih =>
    simp only [splitNl] at hp
    by_cases hc : c = '\n'
    · rw [if_pos hc] at hp
      rcases List.mem_cons.mp hp with h1 | h1
      · simp [h1]
      · exact ih p h1
    · rw [if_neg hc] at hp
      cases h : splitNl rest with
      | nil => exact absurd h (splitNl_ne_nil rest)
      | cons a as =>
        rw [h] at hp
        rcases List.mem_cons.mp hp with h1 | h1
        · subst h1
          intro hmem
          rcases List.mem_cons.mp hmem with h2 | h2
          · exact hc h2.symm
          · exact ih a (h ▸ List.mem_cons_self a as) h2
        · exact ih p (h ▸ List.mem_cons_of_mem a h1)

theorem splitNl_single (p : List Char) (hp : '\n' ∉ p) : splitNl p = [p] := by
  induction p with
  | nil => simp [splitNl]
  | cons c rest ih =>
    have hc : ¬(c = '\n') := by
      intro h; exact hp (by simp [h])
    simp only [splitNl, if_neg hc]
    rw [ih (by intro h; exact hp (List.mem_cons_of_mem _ h))]

theorem splitNl_append_nl (p t : List Char) (hp : '\n' ∉ p) :
    splitNl (p ++ '\n' :: t) = p :: splitNl t := by
  induction p with
  | nil => simp [splitNl]
  | cons c rest ih =>
    have hc : ¬(c = '\n') := by intro h; exact hp (by simp [h])
    rw [List.cons_append]
    simp only [splitNl, if_neg hc]
    rw [ih (by intro h; exact hp (List.mem_cons_of_mem _ h))]

theorem splitNl_intercalate (ps : List (List Char)) (hne : ps ≠ [])
    (hnl : ∀ p ∈ ps, '\n' ∉ p) :
    splitNl (List.intercalate ['\n'] ps) = ps := by
  induction ps with
  | nil => exact absurd rfl hne
  | cons p qs ih =>
    cases qs with
    | nil =>
      simp [List.intercalate]
      exact splitNl_single p (hnl p (by simp))
    | cons q qs2 =>
      have h2 : List.intercalate ['\n'] (p :: q :: qs2) =
          p ++ '\n' :: List.intercalate ['\n'] (q :: qs2) := by
        simp [List.intercalate, List.intersperse]
      rw [h2, splitNl_append_nl p _ (hnl p (by simp))]
      rw [ih (by simp) (fun r hr => hnl r (by simp [hr]))]

theorem chunks_ne_nil (w : Nat) (l : List Char) (hl : l ≠ []) : chunks w l ≠ [] := by
  cases l with
  | nil => exact absurd rfl hl
  | cons c cs =>
    cases w with
    | zero => simp [chunks]
    | succ w => simp [chunks]

theorem mem_chunks_length_le (w : Nat) (l : List Char) :
    ∀ c ∈ chunks (w + 1) l, c.length ≤ w + 1 := by
  generalize hn : l.length = n
  induction n using Nat.strong_induction_on generalizing l with
  | _ n ih =>
    cases l with
    | nil => simp [chunks]
    | cons a as =>
      intro c hc
      simp only [chunks] at hc
      rcases List.mem_cons.mp hc with h1 | h1
      · subst h1
        simp
      · subst hn
        refine ih ((a :: as).drop (w + 1)).length ?_ _ rfl c h1
        simp
        omega

theorem mem_chunks_subset (w : Nat) (l : List Char) :
    ∀ c ∈ chunks w l, ∀ x ∈ c, x ∈ l := by
  generalize hn : l.length = n
  induction n using Nat.strong_induction_on generalizing w l with
  | _ n ih =>
    cases l with
    | nil => simp [chunks]
    | cons a as =>
      cases w with
      | zero =>
        intro c hc
        simp [chunks] at hc
        simp [hc]
      | succ w =>
        intro c hc
        simp only [chunks] at hc
        rcases List.mem_cons.mp hc with h1 | h1
        · subst h1
          exact fun x hx => List.take_subset (w + 1) (a :: as) hx
        · intro x hx
          subst hn
          have hrec := ih ((a :: as).drop (w + 1)).length (by simp; omega)
            (w + 1) _ rfl c h1 x hx
          exact List.drop_subset (w + 1) (a :: as) hrec

theorem wrapLine_short (w : Nat) (line : List Char) (h : line.length ≤ w) :
    wrapLine w line = [line] := by
  simp [wrapLine, h]

theorem wrapLine_ne_nil (w : Nat) (line : List Char) : wrapLine w line ≠ [] := by
  simp only [wrapLine]
  split
  · simp
  · next h =>
    exact chunks_ne_nil w line (by intro he; subst he; simp at h)

theorem mem_wrapLine_length_le (w : Nat) (hw : 0 < w) (line : List Char) :
    ∀ p ∈ wrapLine w line, p.length ≤ w := by
  intro p hp
  simp only [wrapLine] at hp
  split at hp
  · next h => simp at hp; subst hp; exact h
  · obtain ⟨w2, rfl⟩ : ∃ w2, w = w2 + 1 := ⟨w - 1, by omega⟩
    exact mem_chunks_length_le w2 line p hp

theorem mem_wrapLine_no_nl (w : Nat) (line : List Char) (hnl : '\n' ∉ line) :
    ∀ p ∈ wrapLine w line, '\n' ∉ p := by
  intro p hp
  simp only [wrapLine] at hp
  split at hp
  · simp at hp; subst hp; exact hnl
  · intro hx
    exact hnl (mem_chunks_subset w line p hp '\n' hx)

theorem flatMap_wrapLine_short (w : Nat) (L : List (List Char))
    (h : ∀ p ∈ L, p.length ≤ w) : L.flatMap (wrapLine w) = L := by
  induction L with
  | nil => simp
  | cons a as ih =>
    rw [List.flatMap_cons, wrapLine_short w a (h a (by simp)),
      ih (fun p hp => h p (by simp [hp]))]
    rfl

theorem flatMap_ne_nil {α β : Type} (L : List α) (f : α → List β) (hL : L ≠ [])
    (hf : ∀ x ∈ L, f x ≠ []) : L.flatMap f ≠ [] := by
  cases L with
  | nil => exact absurd rfl hL
  | cons a as =>
    rw [List.flatMap_cons]
    intro h
    rcases List.append_eq_nil.mp h with ⟨h1, _⟩
    exact hf a (by simp) h1

theorem wrapText_idem (s : List Char) (width : Int) (hw : 0 < width) :
    wrapText (wrapText s width) width = wrapText s width := by
  have hw' : ¬(width ≤ 0) := by omega
  have hwpos : 0 < width.toNat := by omega
  simp only [wrapText, if_neg hw']
  have hPne : (splitNl s).flatMap (wrapLine width.toNat) ≠ [] :=
    flatMap_ne_nil _ _ (splitNl_ne_nil s) (fun p _ => wrapLine_ne_nil _ p)
  have hmemLen : ∀ p ∈ (splitNl s).flatMap (wrapLine width.toNat),
      p.length ≤ width.toNat := by
    intro p hp
    rcases List.mem_flatMap.mp hp with ⟨q, hq, hpq⟩
    exact mem_wrapLine_length_le _ hwpos q p hpq
  have hmemNl : ∀ p ∈ (splitNl s).flatMap (wrapLine width.toNat), '\n' ∉ p := by
    intro p hp
    rcases List.mem_flatMap.mp hp with ⟨q, hq, hpq⟩
    exact mem_wrapLine_no_nl _ q (mem_splitNl_no_nl s q hq) p hpq
  rw [splitNl_intercalate _ hPne hmemNl, flatMap_wrapLine_short _ _ hmemLen]

theorem ensureVisible_spec (R vc row offset : Nat) (hvc : 0 < vc) (hrow : row < R) :
    ensureVisible R vc row offset ≤ row ∧
    row < ensureVisible R vc row offset + vc ∧
    ensureVisible R vc row offset ≤ R - vc := by
  simp only [ensureVisible]
  split_ifs <;> omega

theorem gridNav_inv (R vc : Nat) (hvc : 0 < vc) (key : String)
    (g : GridCursor) (h : gridInv R vc g) : gridInv R vc (gridNav R vc key g) := by
  obtain ⟨h1, h2, h3, h4⟩ := h
  simp only [gridNav]
  split
  · -- up
    split_ifs with hc
    · obtain ⟨e1, e2, e3⟩ := ensureVisible_spec R vc (g.row - 1) g.offset hvc (by omega)
      simp only [gridInv]
      omega
    · exact ⟨h1, h2, h3, h4⟩
  · -- down
    split_ifs with hc
    · obtain ⟨e1, e2, e3⟩ := ensureVisible_spec R vc (g.row + 1) g.offset hvc (by omega)
      simp only [gridInv]
      omega
    · exact ⟨h1, h2, h3, h4⟩
  · -- left
    split_ifs with hc hc2
    · exact ⟨h1, h2, h3, h4⟩
    · obtain ⟨e1, e2, e3⟩ := ensureVisible_spec R vc (g.row - 1) g.offset hvc (by omega)
      simp only [gridInv]
      omega
    · exact ⟨h1, h2, h3, h4⟩
  · -- right
    split_ifs with hc hc2
    · exact ⟨h1, h2, h3, h4⟩
    · obtain ⟨e1, e2, e3⟩ := ensureVisible_spec R vc (g.row + 1) g.offset hvc (by omega)
      simp only [gridInv]
      omega
    · exact ⟨h1, h2, h3, h4⟩
  · -- shift+tab
    split_ifs with hc hc2
    · exact ⟨h1, h2, h3, h4⟩
    · obtain ⟨e1, e2, e3⟩ := ensureVisible_spec R vc (g.row - 1) g.offset hvc (by omega)
      simp only [gridInv]
      omega
    · exact ⟨h1, h2, h3, h4⟩
  · -- other keys
    exact ⟨h1, h2, h3, h4⟩

theorem gridApply_inv (R vc : Nat) (hvc : 0 < vc) (ks : List String) (g : GridCursor)
    (h : gridInv R vc g) : gridInv R vc (gridApply R vc g ks) := by
  induction ks generalizing g with
  | nil => exact h
  | cons k ks ih => exact ih _ (gridNav_inv R vc hvc k g h)

theorem grid_invariant (R vc : Nat) (hR : 0 < R) (hvc : 0 < vc) (ks : List String) :
    gridInv R vc (gridApply R vc gridInit ks) := by
  refine gridApply_inv R vc hvc ks gridInit ?_
  simp only [gridInv, gridInit]
  omega

-- structural projection lemmas
theorem focusCurrent_row (h : HeadersInputContainer) :
    h.focusCurrentInput.focusedRow = h.focusedRow := rfl

theorem focusCurrent_input (h : HeadersInputContainer) :
    h.focusCurrentInput.focusedInput = h.focusedInput := rfl

theorem autoClose_row (h : HeadersInputContainer) (a b : Nat) (c : Bool) :
    (h.autoClose a b c).focusedRow = h.focusedRow := by
  simp only [HeadersInputContainer.autoClose]
  split <;> rfl

theorem autoClose_input (h : HeadersInputContainer) (a b : Nat) (c : Bool) :
    (h.autoClose a b c).focusedInput = h.focusedInput := by
  simp only [HeadersInputContainer.autoClose]
  split <;> rfl

theorem navStep_left_col0 (h : HeadersInputContainer) (hfi : h.focusedInput = 0) :
    h.navStep keyLeft = h := by
  simp [HeadersInputContainer.navStep, keyLeft, hfi]

theorem navStep_right_col1 (h : HeadersInputContainer) (hfi : h.focusedInput = 1) :
    h.navStep keyRight = h := by
  simp [HeadersInputContainer.navStep, keyRight, hfi]

-- C7 headers part
theorem headersLeftNoop (h : HeadersInputContainer) (hfi : h.focusedInput = 0) :
    (h.Update keyLeft).focusedRow = h.focusedRow ∧
    (h.Update keyLeft).focusedInput = h.focusedInput := by
  simp only [HeadersInputContainer.Update]
  constructor
  · split
    · next hC => simp [keyLeft, keyUp, keyDown, keyRight, keyEnter] at hC
    · rw [focusCurrent_row, autoClose_row, navStep_left_col0 h hfi]
  · split
    · next hC => simp [keyLeft, keyUp, keyDown, keyRight, keyEnter] at hC
    · rw [focusCurrent_input, autoClose_input, navStep_left_col0 h hfi]

theorem headersRightNoop (h : HeadersInputContainer) (hfi : h.focusedInput = 1) :
    (h.Update keyRight).focusedRow = h.focusedRow ∧
    (h.Update keyRight).focusedInput = h.focusedInput := by
  simp only [HeadersInputContainer.Update]
  constructor
  · split
    · next hC => simp [keyRight, keyUp, keyDown, keyLeft, keyEnter] at hC
    · rw [focusCurrent_row, autoClose_row, navStep_right_col1 h hfi]
  · split
    · next hC => simp [keyRight, keyUp, keyDown, keyLeft, keyEnter] at hC
    · rw [focusCurrent_input, autoClose_input, navStep_right_col1 h hfi]

theorem selNavFold_nil (len sel : Nat) : selNavFold len sel [] = sel := rfl

theorem method_nav_commits (navs : List String) (m : MethodSelector)
    (hact : m.Active = true) (hopen : m.DropdownOpen = true)
    (hnav : ∀ k ∈ navs, k = keyUp ∨ k = keyDown) :
    m.applyKeys navs =
      { m with SelectedMethod := selNavFold m.Methods.length m.SelectedMethod navs } := by
  induction navs generalizing m with
  | nil => rfl
  | cons k ks ih =>
    have hk := hnav k (by simp)
    rcases hk with hk | hk <;> subst hk
    · have hstep : m.Update keyUp = { m with SelectedMethod :=
          ((m.SelectedMethod + m.Methods.length - 1) % m.Methods.length) } := by
        simp [MethodSelector.Update, keyUp, hact, hopen, MethodSelector.Prev]
      show (m.Update keyUp).applyKeys ks = _
      rw [hstep]
      rw [ih ({ m with SelectedMethod :=
          ((m.SelectedMethod + m.Methods.length - 1) % m.Methods.length) })
        hact hopen (fun x hx => hnav x (by simp [hx]))]
      simp [selNavFold, keyUp, keyDown]
    · have hstep : m.Update keyDown = { m with SelectedMethod :=
          ((m.SelectedMethod + 1) % m.Methods.length) } := by
        simp [MethodSelector.Update, keyDown, hact, hopen, MethodSelector.Next]
      show (m.Update keyDown).applyKeys ks = _
      rw [hstep]
      rw [ih ({ m with SelectedMethod := ((m.SelectedMethod + 1) % m.Methods.length) })
        hact hopen (fun x hx => hnav x (by simp [hx]))]
      simp [selNavFold, keyUp, keyDown]

theorem method_open_nav_close (m : MethodSelector) (navs : List String)
    (hact : m.Active = true) (hclosed : m.DropdownOpen = false)
    (hnav : ∀ k ∈ navs, k = keyUp ∨ k = keyDown) :
    ((m.Update keyEnter).applyKeys navs).Update keyEnter =
      { m with SelectedMethod := selNavFold m.Methods.length m.SelectedMethod navs } := by
  have hopen : m.Update keyEnter = { m with DropdownOpen := true } := by
    simp [MethodSelector.Update, keyEnter, hact, hclosed]
  rw [hopen]
  rw [method_nav_commits navs ({ m with DropdownOpen := true }) hact rfl hnav]
  simp [MethodSelector.Update, keyEnter, hact, hclosed]

theorem length_updateAt {α : Type} (n : Nat) (f : α → α) (l : List α) :
    (updateAt n f l).length = l.length := by
  induction l generalizing n with
  | nil => simp [updateAt]
  | cons x xs ih =>
    cases n with
    | zero => simp [updateAt]
    | succ m => simp [updateAt, ih]

theorem nthD_updateAt_self {α : Type} (d : α) (n : Nat) (f : α → α) (l : List α)
    (h : n < l.length) : nthD (updateAt n f l) n d = f (nthD l n d) := by
  induction l generalizing n with
  | nil => simp at h
  | cons x xs ih =>
    cases n with
    | zero => simp [updateAt, nthD]
    | succ m =>
      simp only [updateAt, nthD]
      exact ih m (by simpa using h)

theorem nthD_default {α : Type} (d : α) (n : Nat) (l : List α)
    (h : l.length ≤ n) : nthD l n d = d := by
  induction l generalizing n with
  | nil => simp [nthD]
  | cons x xs ih =>
    cases n with
    | zero => simp at h
    | succ m =>
      simp only [nthD]
      exact ih m (by simpa using h)

theorem mapIdxGo_length {α : Type} (f : Nat → α → α) (i : Nat) (l : List α) :
    (mapIdx.go f i l).length = l.length := by
  induction l generalizing i with
  | nil => rfl
  | cons x xs ih => simp [mapIdx.go, ih]

theorem length_mapIdx {α : Type} (f : Nat → α → α) (l : List α) :
    (mapIdx f l).length = l.length := mapIdxGo_length f 0 l

theorem mapIdxGo_nthD {α : Type} (d : α) (f : Nat → α → α) (i n : Nat) (l : List α)
    (h : n < l.length) : nthD (mapIdx.go f i l) n d = f (i + n) (nthD l n d) := by
  induction l generalizing i n with
  | nil => simp at h
  | cons x xs ih =>
    cases n with
    | zero => simp [mapIdx.go, nthD]
    | succ m =>
      show nthD (mapIdx.go f (i + 1) xs) m d = _
      rw [ih (i + 1) m (by simpa using h)]
      congr 1
      omega

theorem nthD_mapIdx {α : Type} (d : α) (f : Nat → α → α) (n : Nat) (l : List α)
    (h : n < l.length) : nthD (mapIdx f l) n d = f n (nthD l n d) := by
  rw [mapIdx, mapIdxGo_nthD d f 0 n l h]
  simp

theorem focusCurrent_length (h : HeadersInputContainer) :
    h.focusCurrentInput.inputs.length = h.inputs.length :=
  length_mapIdx _ _

theorem focusCurrent_nthD_fields (h : HeadersInputContainer) (r : Nat)
    (hr : r < h.inputs.length) :
    (nthD h.focusCurrentInput.inputs r defaultHeaderInput).DropdownOpen =
      (nthD h.inputs r defaultHeaderInput).DropdownOpen ∧
    (nthD h.focusCurrentInput.inputs r defaultHeaderInput).SelectedHeader =
      (nthD h.inputs r defaultHeaderInput).SelectedHeader ∧
    (nthD h.focusCurrentInput.inputs r defaultHeaderInput).HeaderSelect =
      (nthD h.inputs r defaultHeaderInput).HeaderSelect := by
  have hfc : h.focusCurrentInput.inputs = mapIdx (fun i inp =>
      if i = h.focusedRow then
        if h.focusedInput = 1 then { inp with ValueFocused := true }
        else { inp with ValueFocused := false }
      else { inp with ValueFocused := false }) h.inputs := rfl
  rw [hfc, nthD_mapIdx defaultHeaderInput _ r h.inputs hr]
  split <;> try split
  all_goals simp

theorem autoClose_noop (h : HeadersInputContainer) (c : Bool) :
    h.autoClose h.focusedRow h.focusedInput c = h := by
  simp [HeadersInputContainer.autoClose]

theorem navStep_up_open (h : HeadersInputContainer) (hfi : h.focusedInput = 0)
    (hopen : (nthD h.inputs h.focusedRow defaultHeaderInput).DropdownOpen = true) :
    h.navStep keyUp = { h with inputs := (updateAt h.focusedRow (fun inp =>
      { inp with SelectedHeader :=
          ((inp.SelectedHeader + inp.HeaderSelect.length - 1) %
            inp.HeaderSelect.length) }) h.inputs) } := by
  simp [HeadersInputContainer.navStep, keyUp, hfi, hopen]

theorem navStep_down_open (h : HeadersInputContainer) (hfi : h.focusedInput = 0)
    (hopen : (nthD h.inputs h.focusedRow defaultHeaderInput).DropdownOpen = true) :
    h.navStep keyDown = { h with inputs := (updateAt h.focusedRow (fun inp =>
      { inp with SelectedHeader :=
          ((inp.SelectedHeader + 1) % inp.HeaderSelect.length) }) h.inputs) } := by
  simp [HeadersInputContainer.navStep, keyDown, hfi, hopen]

theorem navStep_enter_col0 (h : HeadersInputContainer) (hfi : h.focusedInput = 0) :
    h.navStep keyEnter = { h with inputs := (updateAt h.focusedRow (fun inp =>
      { inp with DropdownOpen := !inp.DropdownOpen }) h.inputs) } := by
  simp [HeadersInputContainer.navStep, keyEnter, hfi]

theorem update_col0_shape (h : HeadersInputContainer) (key : String)
    (hfi : h.focusedInput = 0) :
    h.Update key = ((h.navStep key).autoClose h.focusedRow h.focusedInput
      (decide (h.focusedInput = 0 ∧
        (nthD h.inputs h.focusedRow defaultHeaderInput).DropdownOpen))).focusCurrentInput := by
  simp only [HeadersInputContainer.Update]
  rw [if_neg]
  intro hC
  rw [hfi] at hC
  exact absurd hC.1 (by simp)

theorem autoClose_noop2 (h : HeadersInputContainer) (r i : Nat) (c : Bool)
    (hr : r = h.focusedRow) (hi : i = h.focusedInput) :
    h.autoClose r i c = h := by
  subst hr; subst hi
  exact autoClose_noop h c

theorem update_up_open (h : HeadersInputContainer) (hfi : h.focusedInput = 0)
    (hopen : (nthD h.inputs h.focusedRow defaultHeaderInput).DropdownOpen = true)
    (hr : h.focusedRow < h.inputs.length) :
    (h.Update keyUp).focusedRow = h.focusedRow ∧
    (h.Update keyUp).focusedInput = 0 ∧
    (h.Update keyUp).inputs.length = h.inputs.length ∧
    (nthD (h.Update keyUp).inputs h.focusedRow defaultHeaderInput).DropdownOpen = true ∧
    (nthD (h.Update keyUp).inputs h.focusedRow defaultHeaderInput).HeaderSelect =
      (nthD h.inputs h.focusedRow defaultHeaderInput).HeaderSelect ∧
    (nthD (h.Update keyUp).inputs h.focusedRow defaultHeaderInput).SelectedHeader =
      (((nthD h.inputs h.focusedRow defaultHeaderInput).SelectedHeader +
        (nthD h.inputs h.focusedRow defaultHeaderInput).HeaderSelect.length - 1) %
        (nthD h.inputs h.focusedRow defaultHeaderInput).HeaderSelect.length) := by
  rw [update_col0_shape _ _ hfi, navStep_up_open h hfi hopen]
  rw [autoClose_noop2 _ _ _ _ rfl rfl]
  have hr1 : h.focusedRow <
      ({ h with inputs := (updateAt h.focusedRow (fun inp =>
        { inp with SelectedHeader :=
            ((inp.SelectedHeader + inp.HeaderSelect.length - 1) %
              inp.HeaderSelect.length) }) h.inputs) } :
        HeadersInputContainer).inputs.length := by
    simpa [length_updateAt] using hr
  obtain ⟨f1, f2, f3⟩ := focusCurrent_nthD_fields _ h.focusedRow hr1
  refine ⟨rfl, hfi, ?_, ?_, ?_, ?_⟩
  · rw [focusCurrent_length]
    simp [length_updateAt]
  · rw [f1]
    rw [show ({ h with inputs := (updateAt h.focusedRow (fun inp =>
        { inp with SelectedHeader :=
            ((inp.SelectedHeader + inp.HeaderSelect.length - 1) %
              inp.HeaderSelect.length) }) h.inputs) } :
        HeadersInputContainer).inputs = (updateAt h.focusedRow (fun inp =>
        { inp with SelectedHeader :=
            ((inp.SelectedHeader + inp.HeaderSelect.length - 1) %
              inp.HeaderSelect.length) }) h.inputs) from rfl]
    rw [nthD_updateAt_self defaultHeaderInput _ _ _ hr]
    exact hopen
  · rw [f3]
    rw [show ({ h with inputs := (updateAt h.focusedRow (fun inp =>
        { inp with SelectedHeader :=
            ((inp.SelectedHeader + inp.HeaderSelect.length - 1) %
              inp.HeaderSelect.length) }) h.inputs) } :
        HeadersInputContainer).inputs = (updateAt h.focusedRow (fun inp =>
        { inp with SelectedHeader :=
            ((inp.SelectedHeader + inp.HeaderSelect.length - 1) %
              inp.HeaderSelect.length) }) h.inputs) from rfl]
    rw [nthD_updateAt_self defaultHeaderInput _ _ _ hr]
  · rw [f2]
    rw [show ({ h with inputs := (updateAt h.focusedRow (fun inp =>
        { inp with SelectedHeader :=
            ((inp.SelectedHeader + inp.HeaderSelect.length - 1) %
              inp.HeaderSelect.length) }) h.inputs) } :
        HeadersInputContainer).inputs = (updateAt h.focusedRow (fun inp =>
        { inp with SelectedHeader :=
            ((inp.SelectedHeader + inp.HeaderSelect.length - 1) %
              inp.HeaderSelect.length) }) h.inputs) from rfl]
    rw [nthD_updateAt_self defaultHeaderInput _ _ _ hr]

theorem fc_updateAt_fields (h : HeadersInputContainer) (f : HeaderInput → HeaderInput)
    (hr : h.focusedRow < h.inputs.length) :
    (({ h with inputs := (updateAt h.focusedRow f h.inputs) } :
        HeadersInputContainer).focusCurrentInput).focusedRow = h.focusedRow ∧
    (({ h with inputs := (updateAt h.focusedRow f h.inputs) } :
        HeadersInputContainer).focusCurrentInput).focusedInput = h.focusedInput ∧
    (({ h with inputs := (updateAt h.focusedRow f h.inputs) } :
        HeadersInputContainer).focusCurrentInput).inputs.length = h.inputs.length ∧
    (nthD (({ h with inputs := (updateAt h.focusedRow f h.inputs) } :
        HeadersInputContainer).focusCurrentInput).inputs h.focusedRow
        defaultHeaderInput).DropdownOpen =
      (f (nthD h.inputs h.focusedRow defaultHeaderInput)).DropdownOpen ∧
    (nthD (({ h with inputs := (updateAt h.focusedRow f h.inputs) } :
        HeadersInputContainer).focusCurrentInput).inputs h.focusedRow
        defaultHeaderInput).HeaderSelect =
      (f (nthD h.inputs h.focusedRow defaultHeaderInput)).HeaderSelect ∧
    (nthD (({ h with inputs := (updateAt h.focusedRow f h.inputs) } :
        HeadersInputContainer).focusCurrentInput).inputs h.focusedRow
        defaultHeaderInput).SelectedHeader =
      (f (nthD h.inputs h.focusedRow defaultHeaderInput)).SelectedHeader := by
  have hr1 : h.focusedRow < ({ h with inputs := (updateAt h.focusedRow f h.inputs) } :
      HeadersInputContainer).inputs.length := by
    simpa [length_updateAt] using hr
  obtain ⟨f1, f2, f3⟩ := focusCurrent_nthD_fields _ h.focusedRow hr1
  have hu : ({ h with inputs := (updateAt h.focusedRow f h.inputs) } :
      HeadersInputContainer).inputs = updateAt h.focusedRow f h.inputs := rfl
  refine ⟨rfl, rfl, ?_, ?_, ?_, ?_⟩
  · rw [focusCurrent_length, hu, length_updateAt]
  · rw [f1, hu, nthD_updateAt_self defaultHeaderInput _ _ _ hr]
  · rw [f3, hu, nthD_updateAt_self defaultHeaderInput _ _ _ hr]
  · rw [f2, hu, nthD_updateAt_self defaultHeaderInput _ _ _ hr]

theorem update_down_open (h : HeadersInputContainer) (hfi : h.focusedInput = 0)
    (hopen : (nthD h.inputs h.focusedRow defaultHeaderInput).DropdownOpen = true)
    (hr : h.focusedRow < h.inputs.length) :
    (h.Update keyDown).focusedRow = h.focusedRow ∧
    (h.Update keyDown).focusedInput = 0 ∧
    (h.Update keyDown).inputs.length = h.inputs.length ∧
    (nthD (h.Update keyDown).inputs h.focusedRow defaultHeaderInput).DropdownOpen = true ∧
    (nthD (h.Update keyDown).inputs h.focusedRow defaultHeaderInput).HeaderSelect =
      (nthD h.inputs h.focusedRow defaultHeaderInput).HeaderSelect ∧
    (nthD (h.Update keyDown).inputs h.focusedRow defaultHeaderInput).SelectedHeader =
      (((nthD h.inputs h.focusedRow defaultHeaderInput).SelectedHeader + 1) %
        (nthD h.inputs h.focusedRow defaultHeaderInput).HeaderSelect.length) := by
  rw [update_col0_shape _ _ hfi, navStep_down_open h hfi hopen]
  rw [autoClose_noop2 _ _ _ _ rfl rfl]
  obtain ⟨g1, g2, g3, g4, g5, g6⟩ := fc_updateAt_fields h (fun inp =>
    { inp with SelectedHeader := ((inp.SelectedHeader + 1) % inp.HeaderSelect.length) }) hr
  exact ⟨g1, by rw [g2]; exact hfi, g3, by rw [g4]; exact hopen, g5, g6⟩

theorem update_enter_col0 (h : HeadersInputContainer) (hfi : h.focusedInput = 0)
    (hr : h.focusedRow < h.inputs.length) :
    (h.Update keyEnter).focusedRow = h.focusedRow ∧
    (h.Update keyEnter).focusedInput = 0 ∧
    (h.Update keyEnter).inputs.length = h.inputs.length ∧
    (nthD (h.Update keyEnter).inputs h.focusedRow defaultHeaderInput).DropdownOpen =
      !(nthD h.inputs h.focusedRow defaultHeaderInput).DropdownOpen ∧
    (nthD (h.Update keyEnter).inputs h.focusedRow defaultHeaderInput).HeaderSelect =
      (nthD h.inputs h.focusedRow defaultHeaderInput).HeaderSelect ∧
    (nthD (h.Update keyEnter).inputs h.focusedRow defaultHeaderInput).SelectedHeader =
      (nthD h.inputs h.focusedRow defaultHeaderInput).SelectedHeader := by
  rw [update_col0_shape _ _ hfi, navStep_enter_col0 h hfi]
  rw [autoClose_noop2 _ _ _ _ rfl rfl]
  obtain ⟨g1, g2, g3, g4, g5, g6⟩ := fc_updateAt_fields h (fun inp =>
    { inp with DropdownOpen := !inp.DropdownOpen }) hr
  exact ⟨g1, by rw [g2]; exact hfi, g3, g4, g5, g6⟩

theorem headers_nav_commits (navs : List String) (h : HeadersInputContainer)
    (hfi : h.focusedInput = 0)
    (hopen : (nthD h.inputs h.focusedRow defaultHeaderInput).DropdownOpen = true)
    (hnav : ∀ k ∈ navs, k = keyUp ∨ k = keyDown) :
    (h.applyKeys navs).focusedRow = h.focusedRow ∧
    (h.applyKeys navs).focusedInput = 0 ∧
    (h.applyKeys navs).inputs.length = h.inputs.length ∧
    (nthD (h.applyKeys navs).inputs h.focusedRow defaultHeaderInput).DropdownOpen = true ∧
    (nthD (h.applyKeys navs).inputs h.focusedRow defaultHeaderInput).HeaderSelect =
      (nthD h.inputs h.focusedRow defaultHeaderInput).HeaderSelect ∧
    (nthD (h.applyKeys navs).inputs h.focusedRow defaultHeaderInput).SelectedHeader =
      selNavFold (nthD h.inputs h.focusedRow defaultHeaderInput).HeaderSelect.length
        (nthD h.inputs h.focusedRow defaultHeaderInput).SelectedHeader navs := by
  have hr : h.focusedRow < h.inputs.length := by
    by_contra hc
    rw [nthD_default defaultHeaderInput h.focusedRow h.inputs (by omega)] at hopen
    simp [defaultHeaderInput] at hopen
  induction navs generalizing h with
  | nil => exact ⟨rfl, hfi, rfl, hopen, rfl, rfl⟩
  | cons k ks ih =>
    rcases hnav k (by simp) with hk | hk <;> subst hk
    · rw [show h.applyKeys (keyUp :: ks) = (h.Update keyUp).applyKeys ks from rfl]
      obtain ⟨u1, u2, u3, u4, u5, u6⟩ := update_up_open h hfi hopen hr
      have hr2 : (h.Update keyUp).focusedRow < (h.Update keyUp).inputs.length := by
        rw [u1, u3]; exact hr
      obtain ⟨v1, v2, v3, v4, v5, v6⟩ := ih (h.Update keyUp)
        u2 (by rw [u1]; exact u4) (fun x hx => hnav x (by simp [hx])) hr2
      rw [u1] at v1 v4 v5 v6
      refine ⟨v1, v2, by rw [v3, u3], v4, by rw [v5, u5], ?_⟩
      rw [v6, u5, u6]
      simp [selNavFold, keyUp, keyDown]
    · rw [show h.applyKeys (keyDown :: ks) = (h.Update keyDown).applyKeys ks from rfl]
      obtain ⟨u1, u2, u3, u4, u5, u6⟩ := update_down_open h hfi hopen hr
      have hr2 : (h.Update keyDown).focusedRow < (h.Update keyDown).inputs.length := by
        rw [u1, u3]; exact hr
      obtain ⟨v1, v2, v3, v4, v5, v6⟩ := ih (h.Update keyDown)
        u2 (by rw [u1]; exact u4) (fun x hx => hnav x (by simp [hx])) hr2
      rw [u1] at v1 v4 v5 v6
      refine ⟨v1, v2, by rw [v3, u3], v4, by rw [v5, u5], ?_⟩
      rw [v6, u5, u6]
      simp [selNavFold, keyUp, keyDown]

theorem headers_open_nav_close (navs : List String) (h : HeadersInputContainer)
    (hfi : h.focusedInput = 0)
    (hclosed : (nthD h.inputs h.focusedRow defaultHeaderInput).DropdownOpen = false)
    (hr : h.focusedRow < h.inputs.length)
    (hnav : ∀ k ∈ navs, k = keyUp ∨ k = keyDown) :
    (((h.Update keyEnter).applyKeys navs).Update keyEnter).focusedRow = h.focusedRow ∧
    (((h.Update keyEnter).applyKeys navs).Update keyEnter).focusedInput = 0 ∧
    (nthD (((h.Update keyEnter).applyKeys navs).Update keyEnter).inputs h.focusedRow
      defaultHeaderInput).DropdownOpen = false ∧
    (nthD (((h.Update keyEnter).applyKeys navs).Update keyEnter).inputs h.focusedRow
      defaultHeaderInput).HeaderSelect =
      (nthD h.inputs h.focusedRow defaultHeaderInput).HeaderSelect ∧
    (nthD (((h.Update keyEnter).applyKeys navs).Update keyEnter).inputs h.focusedRow
      defaultHeaderInput).SelectedHeader =
      selNavFold (nthD h.inputs h.focusedRow defaultHeaderInput).HeaderSelect.length
        (nthD h.inputs h.focusedRow defaultHeaderInput).SelectedHeader navs := by
  obtain ⟨e1, e2, e3, e4, e5, e6⟩ := update_enter_col0 h hfi hr
  have e4o : (nthD (h.Update keyEnter).inputs h.focusedRow
      defaultHeaderInput).DropdownOpen = true := by
    rw [e4, hclosed]
    rfl
  rw [← e1] at e4o
  obtain ⟨n1, n2, n3, n4, n5, n6⟩ :=
    headers_nav_commits navs (h.Update keyEnter) e2 e4o hnav
  have hr2 : ((h.Update keyEnter).applyKeys navs).focusedRow <
      ((h.Update keyEnter).applyKeys navs).inputs.length := by
    rw [n1, n3, e1, e3]
    exact hr
  obtain ⟨c1, c2, c3, c4, c5, c6⟩ :=
    update_enter_col0 ((h.Update keyEnter).applyKeys navs) n2 hr2
  have hidx2 : (h.Update keyEnter).focusedRow = h.focusedRow := e1
  have hidx3 : ((h.Update keyEnter).applyKeys navs).focusedRow = h.focusedRow :=
    n1.trans e1
  rw [hidx3] at c4 c5 c6
  rw [hidx2] at n4 n5 n6
  refine ⟨c1.trans hidx3, c2, ?_, ?_, ?_⟩
  · rw [c4, n4]
    rfl
  · rw [c5, n5, e5]
  · rw [c6, n6, e6, e5]

theorem getHeaders_fold_ne_none (L : List HeaderInput) (m : String → Option String)
    (k : String) :
    (L.foldl (fun m inp =>
      if 0 < inp.HeaderSelect.length ∧ inp.SelectedHeader < inp.HeaderSelect.length then
        if nthD inp.HeaderSelect inp.SelectedHeader emptyString ≠ "Empty" ∧ inp.ValueText ≠ "" then
          fun x => if x = nthD inp.HeaderSelect inp.SelectedHeader emptyString then
            some inp.ValueText else m x
        else m
      else m) m) k ≠ none ↔
    (∃ inp ∈ L,
      (0 < inp.HeaderSelect.length ∧ inp.SelectedHeader < inp.HeaderSelect.length) ∧
      nthD inp.HeaderSelect inp.SelectedHeader emptyString = k ∧ k ≠ "Empty" ∧
      inp.ValueText ≠ "") ∨ m k ≠ none := by
  induction L generalizing m with
  | nil => simp
  | cons inp L ih =>
    rw [List.foldl_cons, ih]
    constructor
    · rintro (h1 | h1)
      · left
        obtain ⟨i2, hi2, hrest⟩ := h1
        exact ⟨i2, by simp [hi2], hrest⟩
      · split_ifs at h1 with hc1 hc2
        · by_cases hk : k = nthD inp.HeaderSelect inp.SelectedHeader emptyString
          · left
            refine ⟨inp, by simp, hc1, hk.symm, ?_, hc2.2⟩
            rw [hk]
            exact hc2.1
          · right
            simpa [hk] using h1
        · right; exact h1
        · right; exact h1
    · rintro (h1 | h1)
      · obtain ⟨i2, hi2, hcond, hkey, hkne, hval⟩ := h1
        rcases List.mem_cons.mp hi2 with rfl | hmem
        · right
          rw [if_pos hcond, if_pos ⟨by rw [hkey]; exact hkne, hval⟩]
          simp [hkey]
        · left
          exact ⟨i2, hmem, hcond, hkey, hkne, hval⟩
      · right
        split_ifs with hc1 hc2
        · by_cases hk : k = nthD inp.HeaderSelect inp.SelectedHeader emptyString
          · simp [hk]
          · simpa [hk] using h1
        · exact h1
        · exact h1

theorem getHeaders_ne_none_iff (h : HeadersInputContainer) (k : String) :
    h.GetHeaders k ≠ none ↔
    ∃ inp ∈ h.inputs,
      (0 < inp.HeaderSelect.length ∧ inp.SelectedHeader < inp.HeaderSelect.length) ∧
      nthD inp.HeaderSelect inp.SelectedHeader emptyString = k ∧ k ≠ "Empty" ∧
      inp.ValueText ≠ "" := by
  rw [HeadersInputContainer.GetHeaders, getHeaders_fold_ne_none]
  simp

theorem getParams_fold_ne_none (L : List ParamInput) (m : String → Option String)
    (k : String) :
    (L.foldl (fun m p =>
      if p.NameText.trim ≠ "" then
        fun x => if x = p.NameText.trim then some p.ValueText.trim else m x
      else m) m) k ≠ none ↔
    (∃ p ∈ L, p.NameText.trim = k ∧ k ≠ "") ∨ m k ≠ none := by
  induction L generalizing m with
  | nil => simp
  | cons p L ih =>
    rw [List.foldl_cons, ih]
    constructor
    · rintro (h1 | h1)
      · left
        obtain ⟨p2, hp2, hrest⟩ := h1
        exact ⟨p2, by simp [hp2], hrest⟩
      · split_ifs at h1 with hc1
        · by_cases hk : k = p.NameText.trim
          · left
            refine ⟨p, by simp, hk.symm, ?_⟩
            rw [hk]
            exact hc1
          · right
            simpa [hk] using h1
        · right; exact h1
    · rintro (h1 | h1)
      · obtain ⟨p2, hp2, hkey, hkne⟩ := h1
        rcases List.mem_cons.mp hp2 with rfl | hmem
        · right
          rw [if_pos (by rw [hkey]; exact hkne)]
          simp [hkey]
        · left
          exact ⟨p2, hmem, hkey, hkne⟩
      · right
        split_ifs with hc1
        · by_cases hk : k = p.NameText.trim
          · simp [hk]
          · simpa [hk] using h1
        · exact h1

theorem getParams_ne_none_iff (pc : ParamsContainer) (k : String) :
    pc.GetParams k ≠ none ↔
    ∃ p ∈ pc.Inputs, p.NameText.trim = k ∧ k ≠ "" := by
  rw [ParamsContainer.GetParams, getParams_fold_ne_none]
  simp

theorem paramsSetActive_Active (pc : ParamsContainer) (b : Bool) :
    (pc.SetActive b).Active = b := by
  simp only [ParamsContainer.SetActive, ParamsContainer.ensureFocusedInputVisible,
    ParamsContainer.focusCurrentInput, ParamsContainer.blurAllInputs]
  split_ifs <;> rfl

theorem headersInputSetActive_Active (h : HeadersInputContainer) (b : Bool) :
    (h.SetActive b).Active = b := by
  simp only [HeadersInputContainer.SetActive, HeadersInputContainer.focusCurrentInput,
    HeadersInputContainer.blurAllInputs]
  split_ifs <;> rfl

theorem authSetActive_Active (ac : AuthContainer) (b : Bool) :
    (ac.SetActive b).Active = b := by
  simp only [AuthContainer.SetActive]
  split_ifs <;> rfl

theorem updateFocus_InnerTabs (q : QueryTab) :
    q.updateFocus.InnerTabs = q.InnerTabs := by
  simp only [QueryTab.updateFocus]
  split_ifs <;> rfl

theorem updateFocus_ActiveInnerTab (q : QueryTab) :
    q.updateFocus.ActiveInnerTab = q.ActiveInnerTab := by
  simp only [QueryTab.updateFocus]
  split_ifs <;> rfl

theorem updateFocus_Active (q : QueryTab) : q.updateFocus.Active = q.Active := by
  simp only [QueryTab.updateFocus]
  split_ifs <;> rfl

theorem tabName_updateFocus (q : QueryTab) : q.updateFocus.tabName = q.tabName := by
  rw [QueryTab.tabName, QueryTab.tabName, updateFocus_InnerTabs, updateFocus_ActiveInnerTab]

theorem updateFocus_params (q : QueryTab) :
    q.updateFocus.ParamsInput.Active = (q.Active && (q.tabName == "Params")) := by
  simp only [QueryTab.updateFocus, QueryTab.tabName]
  split_ifs with h1 h2 h3 h4 <;>
    simp_all [paramsSetActive_Active]

theorem updateFocus_auth (q : QueryTab) :
    q.updateFocus.AuthInput.Active = (q.Active && (q.tabName == "Auth")) := by
  simp only [QueryTab.updateFocus, QueryTab.tabName]
  split_ifs with h1 h2 h3 h4 <;>
    simp_all [authSetActive_Active]

theorem updateFocus_headers (q : QueryTab) :
    q.updateFocus.HeadersInput.Active = (q.Active && (q.tabName == "Headers")) := by
  simp only [QueryTab.updateFocus, QueryTab.tabName]
  split_ifs with h1 h2 h3 h4 <;>
    simp_all [headersInputSetActive_Active]

theorem updateFocus_body (q : QueryTab) :
    q.updateFocus.QueryBodyFocused = (q.Active && (q.tabName == "Body")) := by
  simp only [QueryTab.updateFocus, QueryTab.tabName]
  split_ifs with h1 h2 h3 h4 <;> simp_all

theorem updateFocus_inv (q : QueryTab) (hIT : q.InnerTabs = queryInnerTabsList) :
    queryFocusInv q.updateFocus := by
  refine ⟨by rw [updateFocus_InnerTabs]; exact hIT, ?_, ?_, ?_, ?_⟩
  · rw [updateFocus_params, updateFocus_Active, tabName_updateFocus]
  · rw [updateFocus_auth, updateFocus_Active, tabName_updateFocus]
  · rw [updateFocus_headers, updateFocus_Active, tabName_updateFocus]
  · rw [updateFocus_body, updateFocus_Active, tabName_updateFocus]

theorem qSetActive_inv (q : QueryTab) (b : Bool)
    (hIT : q.InnerTabs = queryInnerTabsList) : queryFocusInv (q.SetActive b) :=
  updateFocus_inv _ hIT

theorem qSwitchInner_inv (q : QueryTab) (i : Nat) (hq : queryFocusInv q) :
    queryFocusInv (q.SwitchToInnerTab i) := by
  have hIT := hq.1
  simp only [QueryTab.SwitchToInnerTab]
  split_ifs <;> first
    | exact hq
    | exact updateFocus_inv _ hIT

theorem qNextTab_inv (q : QueryTab) (hq : queryFocusInv q) :
    queryFocusInv q.NextTab := qSwitchInner_inv _ _ hq

theorem qPrevTab_inv (q : QueryTab) (hq : queryFocusInv q) :
    queryFocusInv q.PrevTab := qSwitchInner_inv _ _ hq

theorem rSetActive_inv (r : ResultTab) (b : Bool)
    (hIT : r.InnerTabs = resultInnerTabsList) : resultFocusInv (r.SetActive b) := by
  simp only [ResultTab.SetActive]
  split_ifs with h0 <;>
    refine ⟨hIT, ?_, ?_⟩ <;>
    simp_all [HeadersContainer.SetActive, BodyContainer.SetActive]

theorem rSwitchInner_inv (r : ResultTab) (i : Nat) (hr : resultFocusInv r) :
    resultFocusInv (r.SwitchToInnerTab i) := by
  obtain ⟨hIT, hH, hB⟩ := hr
  simp only [ResultTab.SwitchToInnerTab]
  split_ifs with hlt hact h0 <;>
    first
      | exact ⟨hIT, hH, hB⟩
      | (refine ⟨hIT, ?_, ?_⟩ <;>
          simp_all [HeadersContainer.SetActive, BodyContainer.SetActive])

theorem rNextTab_inv (r : ResultTab) (hr : resultFocusInv r) :
    resultFocusInv r.NextTab := rSwitchInner_inv _ _ hr

theorem rPrevTab_inv (r : ResultTab) (hr : resultFocusInv r) :
    resultFocusInv r.PrevTab := rSwitchInner_inv _ _ hr

theorem qSetActive_InnerTabs (q : QueryTab) (b : Bool) :
    (q.SetActive b).InnerTabs = q.InnerTabs := updateFocus_InnerTabs _

theorem rSetActive_InnerTabs (r : ResultTab) (b : Bool) :
    (r.SetActive b).InnerTabs = r.InnerTabs := by
  simp only [ResultTab.SetActive]
  split_ifs <;> rfl

theorem switchToTab_QueryTab (t : TabsContainer) (i : Nat) :
    (t.SwitchToTab i).QueryTab = t.QueryTab := by
  simp only [TabsContainer.SwitchToTab]
  split_ifs <;> rfl

theorem switchToTab_ResultTab (t : TabsContainer) (i : Nat) :
    (t.SwitchToTab i).ResultTab = t.ResultTab := by
  simp only [TabsContainer.SwitchToTab]
  split_ifs <;> rfl

theorem applyOp_inv (a : App) (op : ActivationOp) (h : appFocusInv a) :
    appFocusInv (applyOp a op) := by
  obtain ⟨hTop, hQ, hR⟩ := h
  cases op with
  | appSetFocus t =>
    cases t with
    | focusMethod =>
      refine ⟨?_, qSetActive_inv _ _ hQ.1, rSetActive_inv _ _ hR.1⟩
      simp [applyOp, App.setFocus, App.topLevelActiveCount, MethodSelector.SetActive,
        URLInput.SetActive, SubmitButton.SetActive, boolToNat]
    | focusURL =>
      refine ⟨?_, qSetActive_inv _ _ hQ.1, rSetActive_inv _ _ hR.1⟩
      simp [applyOp, App.setFocus, App.topLevelActiveCount, MethodSelector.SetActive,
        URLInput.SetActive, SubmitButton.SetActive, boolToNat]
    | focusSubmit =>
      refine ⟨?_, qSetActive_inv _ _ hQ.1, rSetActive_inv _ _ hR.1⟩
      simp [applyOp, App.setFocus, App.topLevelActiveCount, MethodSelector.SetActive,
        URLInput.SetActive, SubmitButton.SetActive, boolToNat]
    | focusQuery =>
      refine ⟨?_, ?_, ?_⟩
      · simp [applyOp, App.setFocus, App.topLevelActiveCount, MethodSelector.SetActive,
          URLInput.SetActive, SubmitButton.SetActive, boolToNat]
      · show queryFocusInv
          (((a.tabContainer.SetActive false).SwitchToTab 0).QueryTab.SetActive true)
        rw [switchToTab_QueryTab]
        exact qSetActive_inv _ _ (by
          rw [show (a.tabContainer.SetActive false).QueryTab =
            a.tabContainer.QueryTab.SetActive false from rfl, qSetActive_InnerTabs]
          exact hQ.1)
      · show resultFocusInv
          (((a.tabContainer.SetActive false).SwitchToTab 0).ResultTab.SetActive true)
        rw [switchToTab_ResultTab]
        exact rSetActive_inv _ _ (by
          rw [show (a.tabContainer.SetActive false).ResultTab =
            a.tabContainer.ResultTab.SetActive false from rfl, rSetActive_InnerTabs]
          exact hR.1)
    | focusResult =>
      refine ⟨?_, ?_, ?_⟩
      · simp [applyOp, App.setFocus, App.topLevelActiveCount, MethodSelector.SetActive,
          URLInput.SetActive, SubmitButton.SetActive, boolToNat]
      · show queryFocusInv
          (((a.tabContainer.SetActive false).SwitchToTab 1).QueryTab.SetActive true)
        rw [switchToTab_QueryTab]
        exact qSetActive_inv _ _ (by
          rw [show (a.tabContainer.SetActive false).QueryTab =
            a.tabContainer.QueryTab.SetActive false from rfl, qSetActive_InnerTabs]
          exact hQ.1)
      · show resultFocusInv
          (((a.tabContainer.SetActive false).SwitchToTab 1).ResultTab.SetActive true)
        rw [switchToTab_ResultTab]
        exact rSetActive_inv _ _ (by
          rw [show (a.tabContainer.SetActive false).ResultTab =
            a.tabContainer.ResultTab.SetActive false from rfl, rSetActive_InnerTabs]
          exact hR.1)
    | focusNone =>
      refine ⟨?_, qSetActive_inv _ _ hQ.1, rSetActive_inv _ _ hR.1⟩
      simp [applyOp, App.setFocus, App.topLevelActiveCount, MethodSelector.SetActive,
        URLInput.SetActive, SubmitButton.SetActive, boolToNat]
  | tabsSetActive b =>
    exact ⟨hTop, qSetActive_inv _ _ hQ.1, rSetActive_inv _ _ hR.1⟩
  | tabsSwitchToTab i =>
    refine ⟨hTop, ?_, ?_⟩
    · rw [show (applyOp a (.tabsSwitchToTab i)).tabContainer.QueryTab =
        (a.tabContainer.SwitchToTab i).QueryTab from rfl, switchToTab_QueryTab]
      exact hQ
    · rw [show (applyOp a (.tabsSwitchToTab i)).tabContainer.ResultTab =
        (a.tabContainer.SwitchToTab i).ResultTab from rfl, switchToTab_ResultTab]
      exact hR
  | querySetActive b => exact ⟨hTop, qSetActive_inv _ _ hQ.1, hR⟩
  | querySwitchInner i => exact ⟨hTop, qSwitchInner_inv _ _ hQ, hR⟩
  | queryNextTab => exact ⟨hTop, qNextTab_inv _ hQ, hR⟩
  | queryPrevTab => exact ⟨hTop, qPrevTab_inv _ hQ, hR⟩
  | resultSetActive b => exact ⟨hTop, hQ, rSetActive_inv _ _ hR.1⟩
  | resultSwitchInner i => exact ⟨hTop, hQ, rSwitchInner_inv _ _ hR⟩
  | resultNextTab => exact ⟨hTop, hQ, rNextTab_inv _ hR⟩
  | resultPrevTab => exact ⟨hTop, hQ, rPrevTab_inv _ hR⟩

theorem applyOps_inv (ops : List ActivationOp) (a : App) (h : appFocusInv a) :
    appFocusInv (applyOps a ops) := by
  induction ops generalizing a with
  | nil => exact h
  | cons op ops ih => exact ih _ (applyOp_inv a op h)

theorem newApp_inv : appFocusInv NewApp := by
  refine ⟨by decide, ?_, ?_⟩ <;> exact ⟨by decide, by decide, by decide⟩

theorem leafCount_of_qInv (q : QueryTab) (hq : queryFocusInv q) :
    q.activeLeafCount ≤ 1 ∧ (q.Active = false → q.activeLeafCount = 0) := by
  obtain ⟨_, h1, h2, h3, h4⟩ := hq
  constructor
  · rw [QueryTab.activeLeafCount, h1, h2, h3, h4]
    cases hA : q.Active
    · simp [boolToNat]
    · by_cases hP : q.tabName = "Params" <;> by_cases hA2 : q.tabName = "Auth" <;>
        by_cases hH : q.tabName = "Headers" <;> by_cases hB : q.tabName = "Body" <;>
        simp_all [boolToNat]
  · intro hA
    rw [QueryTab.activeLeafCount, h1, h2, h3, h4, hA]
    simp [boolToNat]

theorem leafCount_of_rInv (r : ResultTab) (hr : resultFocusInv r) :
    r.activeLeafCount ≤ 1 ∧ (r.Active = false → r.activeLeafCount = 0) := by
  obtain ⟨_, h1, h2⟩ := hr
  constructor
  · rw [ResultTab.activeLeafCount, h1, h2]
    cases hA : r.Active <;> cases h0 : (r.ActiveInnerTab == 0) <;> simp [boolToNat]
  · intro hA
    rw [ResultTab.activeLeafCount, h1, h2, hA]
    simp [boolToNat]

theorem getHeaders_fold_some (L : List HeaderInput) (m : String → Option String)
    (k v : String) :
    (L.foldl (fun m inp =>
      if 0 < inp.HeaderSelect.length ∧ inp.SelectedHeader < inp.HeaderSelect.length then
        if nthD inp.HeaderSelect inp.SelectedHeader emptyString ≠ "Empty" ∧ inp.ValueText ≠ "" then
          fun x => if x = nthD inp.HeaderSelect inp.SelectedHeader emptyString then
            some inp.ValueText else m x
        else m
      else m) m) k = some v →
    (∃ inp ∈ L, nthD inp.HeaderSelect inp.SelectedHeader emptyString = k ∧ inp.ValueText = v) ∨
      m k = some v := by
  induction L generalizing m with
  | nil => intro h; right; exact h
  | cons inp L ih =>
    rw [List.foldl_cons]
    intro h
    rcases ih _ h with h1 | h1
    · left
      obtain ⟨i2, hi2, hrest⟩ := h1
      exact ⟨i2, by simp [hi2], hrest⟩
    · split_ifs at h1 with hc1 hc2
      · by_cases hk : k = nthD inp.HeaderSelect inp.SelectedHeader emptyString
        · simp only [hk, if_true, eq_self_iff_true, if_pos, Option.some.injEq] at h1
          left
          exact ⟨inp, by simp, hk.symm, h1⟩
        · right
          simpa [hk] using h1
      · right; exact h1
      · right; exact h1

theorem getParams_fold_some (L : List ParamInput) (m : String → Option String)
    (k v : String) :
    (L.foldl (fun m p =>
      if p.NameText.trim ≠ "" then
        fun x => if x = p.NameText.trim then some p.ValueText.trim else m x
      else m) m) k = some v →
    (∃ p ∈ L, p.NameText.trim = k ∧ p.ValueText.trim = v) ∨ m k = some v := by
  induction L generalizing m with
  | nil => intro h; right; exact h
  | cons p L ih =>
    rw [List.foldl_cons]
    intro h
    rcases ih _ h with h1 | h1
    · left
      obtain ⟨p2, hp2, hrest⟩ := h1
      exact ⟨p2, by simp [hp2], hrest⟩
    · split_ifs at h1 with hc1
      · by_cases hk : k = p.NameText.trim
        · simp only [hk, if_true, eq_self_iff_true, if_pos, Option.some.injEq] at h1
          left
          exact ⟨p, by simp, hk.symm, h1⟩
        · right
          simpa [hk] using h1
      · right; exact h1

theorem getHeaders_some_val (h : HeadersInputContainer) (k v : String)
    (hkv : h.GetHeaders k = some v) :
    ∃ inp ∈ h.inputs, nthD inp.HeaderSelect inp.SelectedHeader emptyString = k ∧
      inp.ValueText = v := by
  rcases getHeaders_fold_some h.inputs (fun _ => none) k v hkv with h1 | h1
  · exact h1
  · simp at h1

theorem getParams_some_val (pc : ParamsContainer) (k v : String)
    (hkv : pc.GetParams k = some v) :
    ∃ p ∈ pc.Inputs, p.NameText.trim = k ∧ p.ValueText.trim = v := by
  rcases getParams_fold_some pc.Inputs (fun _ => none) k v hkv with h1 | h1
  · exact h1
  · simp at h1

/-! ### Claim theorems -/

/-- Claim C1, counterexample: the claim that at most one leaf widget is
active when the root is active is false — after the single activation
operation `setFocus(focusQuery)` on the fresh app, the tab container is
active and two leaf widgets are active at once (the params grid under
the query tab and the headers pane under the result tab), because
`TabsContainer.SetActive` propagates the flag to both of its
children. -/
theorem claim1_counterexample :
    (applyOps NewApp [ActivationOp.appSetFocus FocusTarget.focusQuery]).tabContainer.Active
      = true ∧
    (applyOps NewApp
      [ActivationOp.appSetFocus FocusTarget.focusQuery]).tabContainer.QueryTab.ParamsInput.Active
      = true ∧
    (applyOps NewApp
      [ActivationOp.appSetFocus FocusTarget.focusQuery]).tabContainer.ResultTab.HeadersTab.Active
      = true ∧
    1 < (applyOps NewApp [ActivationOp.appSetFocus FocusTarget.focusQuery]).activeLeafCount := by
  decide

/-- Claim C1, amended: after any sequence of activation operations from
the initial app state, at most one of the three top-level leaf widgets
is active, and each of the query-tab and result-tab subtrees has at
most one active child — and none when that subtree is inactive.
`QueryTab.SetActive` and `ResultTab.SetActive` do deactivate all their
direct children and reactivate exactly the one matching the selection
pointer, but `TabsContainer.SetActive(true)` activates both subtrees,
so up to two leaves (one per subtree) can be active simultaneously. -/
theorem claim1_amended_per_subtree_exclusive (ops : List ActivationOp) :
    (applyOps NewApp ops).topLevelActiveCount ≤ 1 ∧
    (applyOps NewApp ops).tabContainer.QueryTab.activeLeafCount ≤ 1 ∧
    (applyOps NewApp ops).tabContainer.ResultTab.activeLeafCount ≤ 1 ∧
    ((applyOps NewApp ops).tabContainer.QueryTab.Active = false →
      (applyOps NewApp ops).tabContainer.QueryTab.activeLeafCount = 0) ∧
    ((applyOps NewApp ops).tabContainer.ResultTab.Active = false →
      (applyOps NewApp ops).tabContainer.ResultTab.activeLeafCount = 0) := by
  obtain ⟨hTop, hQ, hR⟩ := applyOps_inv ops NewApp newApp_inv
  obtain ⟨q1, q2⟩ := leafCount_of_qInv _ hQ
  obtain ⟨r1, r2⟩ := leafCount_of_rInv _ hR
  exact ⟨hTop, q1, r1, q2, r2⟩

/-- Claim C1, witness: the amended invariant instantiated at a concrete
operation sequence. -/
theorem claim1_witness :
    (applyOps NewApp [ActivationOp.tabsSetActive true,
      ActivationOp.queryNextTab]).topLevelActiveCount ≤ 1 ∧
    (applyOps NewApp [ActivationOp.tabsSetActive true,
      ActivationOp.queryNextTab]).tabContainer.QueryTab.activeLeafCount ≤ 1 ∧
    (applyOps NewApp [ActivationOp.tabsSetActive true,
      ActivationOp.queryNextTab]).tabContainer.ResultTab.activeLeafCount ≤ 1 ∧
    ((applyOps NewApp [ActivationOp.tabsSetActive true,
      ActivationOp.queryNextTab]).tabContainer.QueryTab.Active = false →
      (applyOps NewApp [ActivationOp.tabsSetActive true,
        ActivationOp.queryNextTab]).tabContainer.QueryTab.activeLeafCount = 0) ∧
    ((applyOps NewApp [ActivationOp.tabsSetActive true,
      ActivationOp.queryNextTab]).tabContainer.ResultTab.Active = false →
      (applyOps NewApp [ActivationOp.tabsSetActive true,
        ActivationOp.queryNextTab]).tabContainer.ResultTab.activeLeafCount = 0) :=
  claim1_amended_per_subtree_exclusive
    [ActivationOp.tabsSetActive true, ActivationOp.queryNextTab]

/-- Claim C2, counterexample: for the HTTP-method selector, opening the
dropdown, pressing one `down` while open, and then closing it with
`enter` leaves `SelectedMethod = 1`, not the pre-open value `0` — the
navigation committed directly, since the selector has no separate
highlighted index. -/
theorem claim2_counterexample :
    (NewMethodSelector.SetActive true).SelectedMethod = 0 ∧
    (((NewMethodSelector.SetActive true).Update keyEnter).Update keyDown).Update keyEnter =
      { NewMethodSelector.SetActive true with SelectedMethod := 1 } := by
  decide

/-- Claim C2, amended: in both the HTTP-method selector and the per-row
header-name selector there is no separate highlighted index; `up`/`down`
while open commit directly into the selection, and the `enter` that
closes the dropdown preserves the last navigated value.  Opening,
applying any sequence of `up`/`down` keys, and closing yields the fold
of those keys over the pre-open selection (so the selection is
unchanged exactly when the navigation is a net no-op, e.g. empty). -/
theorem claim2_amended_nav_commits_directly :
    (∀ (m : MethodSelector) (navs : List String),
      m.Active = true → m.DropdownOpen = false →
      (∀ k ∈ navs, k = keyUp ∨ k = keyDown) →
      ((m.Update keyEnter).applyKeys navs).Update keyEnter =
        { m with SelectedMethod := selNavFold m.Methods.length m.SelectedMethod navs }) ∧
    (∀ (h : HeadersInputContainer) (navs : List String),
      h.focusedInput = 0 →
      (nthD h.inputs h.focusedRow defaultHeaderInput).DropdownOpen = false →
      h.focusedRow < h.inputs.length →
      (∀ k ∈ navs, k = keyUp ∨ k = keyDown) →
      (((h.Update keyEnter).applyKeys navs).Update keyEnter).focusedRow = h.focusedRow ∧
      (((h.Update keyEnter).applyKeys navs).Update keyEnter).focusedInput = 0 ∧
      (nthD (((h.Update keyEnter).applyKeys navs).Update keyEnter).inputs h.focusedRow
        defaultHeaderInput).DropdownOpen = false ∧
      (nthD (((h.Update keyEnter).applyKeys navs).Update keyEnter).inputs h.focusedRow
        defaultHeaderInput).HeaderSelect =
        (nthD h.inputs h.focusedRow defaultHeaderInput).HeaderSelect ∧
      (nthD (((h.Update keyEnter).applyKeys navs).Update keyEnter).inputs h.focusedRow
        defaultHeaderInput).SelectedHeader =
        selNavFold (nthD h.inputs h.focusedRow defaultHeaderInput).HeaderSelect.length
          (nthD h.inputs h.focusedRow defaultHeaderInput).SelectedHeader navs) :=
  ⟨fun m navs hact hclosed hnav => method_open_nav_close m navs hact hclosed hnav,
   fun h navs hfi hclosed hr hnav => headers_open_nav_close navs h hfi hclosed hr hnav⟩

/-- Claim C2, witness: the amended law instantiated at concrete
selectors and key sequences. -/
theorem claim2_witness :
    (((NewMethodSelector.SetActive true).Update keyEnter).applyKeys
        [keyDown, keyDown]).Update keyEnter =
      { NewMethodSelector.SetActive true with SelectedMethod :=
          (selNavFold (NewMethodSelector.SetActive true).Methods.length
            (NewMethodSelector.SetActive true).SelectedMethod [keyDown, keyDown]) } ∧
    (nthD (((NewHeadersInputContainer.Update keyEnter).applyKeys
        [keyDown]).Update keyEnter).inputs NewHeadersInputContainer.focusedRow
      defaultHeaderInput).SelectedHeader =
      selNavFold (nthD NewHeadersInputContainer.inputs
          NewHeadersInputContainer.focusedRow defaultHeaderInput).HeaderSelect.length
        (nthD NewHeadersInputContainer.inputs
          NewHeadersInputContainer.focusedRow defaultHeaderInput).SelectedHeader
        [keyDown] :=
  ⟨claim2_amended_nav_commits_directly.1 (NewMethodSelector.SetActive true)
      [keyDown, keyDown] (by decide) (by decide) (by decide),
   ((((claim2_amended_nav_commits_directly.2 NewHeadersInputContainer
      [keyDown] (by decide) (by decide) (by decide) (by decide)).2).2).2).2⟩

/-- Claim C3 (confirmed): for any fixed row count, any positive
displayable count, and any navigation-key sequence from the initial
cursor, the grid scroll window contains the focused row and the offset
is within `[0, R - vc]`, as maintained by the `ensureVisible`
adjustment after every row change. -/
theorem claim3_grid_visibility_invariant (R vc : Nat) (hR : 0 < R) (hvc : 0 < vc)
    (ks : List String) : gridInv R vc (gridApply R vc gridInit ks) :=
  grid_invariant R vc hR hvc ks

/-- Claim C3, witness: the invariant at the parameter grid's row count
6, displayable count 3, after five `down` presses. -/
theorem claim3_witness :
    gridInv 6 3 (gridApply 6 3 gridInit [keyDown, keyDown, keyDown, keyDown, keyDown]) :=
  claim3_grid_visibility_invariant 6 3 (by decide) (by decide)
    [keyDown, keyDown, keyDown, keyDown, keyDown]

/-- Claim C4 (code bug): `handleRequestCompleteMsg` in the current
`ui/app.go` snapshot lacks the early return its predecessor had in the
error branch.  On a network failure it does raise the toast and
activate the URL input, but then falls through: the previously
displayed response headers are overwritten with the error message's
empty headers string, and the tab container (and result tab) are
re-activated. -/
theorem claim4_error_branch_clobbers_response :
    appWithOldResponse.tabContainer.ResultTab.HeadersTab.Content = oldHeadersText ∧
    (appWithOldResponse.handleRequestCompleteMsg networkFailureMsg).toast.Visible = true ∧
    (appWithOldResponse.handleRequestCompleteMsg networkFailureMsg).urlInput.Active = true ∧
    (appWithOldResponse.handleRequestCompleteMsg
      networkFailureMsg).tabContainer.ResultTab.HeadersTab.Content = "" ∧
    (appWithOldResponse.handleRequestCompleteMsg
      networkFailureMsg).tabContainer.Active = true ∧
    (appWithOldResponse.handleRequestCompleteMsg
      networkFailureMsg).tabContainer.ResultTab.HeadersTab.Active = true := by
  decide

/-- Claim C5 (confirmed): submitting with a URL rejected by the
validator (such as "notaurl") dispatches no request command, shows the
invalid-URL toast, activates the URL field, and deactivates every other
widget, changing nothing else. -/
theorem claim5_invalid_url_no_dispatch (a : App) (h : a.urlInput.Text = "notaurl") :
    a.handleSubmit = ({ a with
        toast := a.toast.Show invalidURLMessage
        methodSelector := a.methodSelector.SetActive false
        urlInput := a.urlInput.SetActive true
        submitButton := a.submitButton.SetActive false
        tabContainer := a.tabContainer.SetActive false }, none) := by
  have hv : validateURL "notaurl" = false := by decide
  simp only [App.handleSubmit, URLInput.GetText, h, hv]
  simp

/-- Claim C5, witness: the invalid-submit behaviour at a concrete app
state whose URL field holds "notaurl". -/
theorem claim5_witness :
    appWithNotaurl.handleSubmit = ({ appWithNotaurl with
        toast := appWithNotaurl.toast.Show invalidURLMessage
        methodSelector := appWithNotaurl.methodSelector.SetActive false
        urlInput := appWithNotaurl.urlInput.SetActive true
        submitButton := appWithNotaurl.submitButton.SetActive false
        tabContainer := appWithNotaurl.tabContainer.SetActive false }, none) :=
  claim5_invalid_url_no_dispatch appWithNotaurl rfl

/-- Claim C6 (confirmed): wrapping an already wrapped text again at the
same positive width changes nothing. -/
theorem claim6_wrap_idempotent (s : List Char) (width : Int) (hw : 0 < width) :
    wrapText (wrapText s width) width = wrapText s width :=
  wrapText_idem s width hw

/-- Claim C6, witness: idempotence at a concrete string and width. -/
theorem claim6_witness :
    (0 : Int) < 3 ∧
    wrapText (wrapText ("ab\ncdefg x".toList) 3) 3 = wrapText ("ab\ncdefg x".toList) 3 :=
  ⟨by decide, claim6_wrap_idempotent ("ab\ncdefg x".toList) 3 (by decide)⟩

/-- Claim C7, counterexample: in the request-headers grid, pressing
`left` at column 0 of row 1 does not move to column 1 of row 0 — the
cursor stays at (row 1, column 0), because the headers grid's `left`
and `right` only move between the two columns of the current row. -/
theorem claim7_counterexample :
    ((NewHeadersInputContainer.Update keyDown).Update keyLeft).focusedRow = 1 ∧
    ((NewHeadersInputContainer.Update keyDown).Update keyLeft).focusedInput = 0 ∧
    ¬(((NewHeadersInputContainer.Update keyDown).Update keyLeft).focusedRow = 0 ∧
      ((NewHeadersInputContainer.Update keyDown).Update keyLeft).focusedInput = 1) := by
  decide

/-- Claim C7, amended: the continuous reading-order cursor holds in the
query-parameters grid — `left` at column 0 moves to column 1 of the
previous row (no-op only on the first row) and `right` at column 1
moves to column 0 of the next row (no-op only on the last row) — but in
the request-headers grid `left` and `right` move only between the two
columns of the current row and never cross rows. -/
theorem claim7_amended_reading_order :
    (∀ (R vc : Nat) (g : GridCursor), g.col = 0 → 0 < g.row →
      (gridNav R vc keyLeft g).row = g.row - 1 ∧ (gridNav R vc keyLeft g).col = 1) ∧
    (∀ (R vc : Nat) (g : GridCursor), g.col = 1 → g.row < R - 1 →
      (gridNav R vc keyRight g).row = g.row + 1 ∧ (gridNav R vc keyRight g).col = 0) ∧
    (∀ (R vc : Nat) (g : GridCursor), g.col = 0 → g.row = 0 →
      gridNav R vc keyLeft g = g) ∧
    (∀ (R vc : Nat) (g : GridCursor), g.col = 1 → ¬(g.row < R - 1) →
      gridNav R vc keyRight g = g) ∧
    (∀ h : HeadersInputContainer, h.focusedInput = 0 →
      (h.Update keyLeft).focusedRow = h.focusedRow ∧
      (h.Update keyLeft).focusedInput = h.focusedInput) ∧
    (∀ h : HeadersInputContainer, h.focusedInput = 1 →
      (h.Update keyRight).focusedRow = h.focusedRow ∧
      (h.Update keyRight).focusedInput = h.focusedInput) := by
  refine ⟨?_, ?_, ?_, ?_, headersLeftNoop, headersRightNoop⟩
  · intro R vc g hcol hrow
    simp [gridNav, keyLeft, hcol, hrow]
  · intro R vc g hcol hrow
    simp [gridNav, keyRight, hcol, hrow]
  · intro R vc g hcol hrow
    simp [gridNav, keyLeft, hcol, hrow]
  · intro R vc g hcol hrow
    simp [gridNav, keyRight, hcol, hrow]

/-- Claim C7, witness: the amended navigation law instantiated at
concrete cursors and the initial headers grid. -/
theorem claim7_witness :
    ((gridNav 6 3 keyLeft { row := 2, col := 0, offset := 1 }).row = 1 ∧
      (gridNav 6 3 keyLeft { row := 2, col := 0, offset := 1 }).col = 1) ∧
    ((NewHeadersInputContainer.Update keyLeft).focusedRow =
        NewHeadersInputContainer.focusedRow ∧
      (NewHeadersInputContainer.Update keyLeft).focusedInput =
        NewHeadersInputContainer.focusedInput) :=
  ⟨claim7_amended_reading_order.1 6 3 { row := 2, col := 0, offset := 1 }
      (by decide) (by decide),
   (((claim7_amended_reading_order.2).2).2).2.1 NewHeadersInputContainer (by decide)⟩

/-- Claim C8, counterexample: with the method-selector dropdown open,
`esc` does not close the selector — the state is unchanged (the
dropdown remains open) and the quit command is emitted. -/
theorem claim8_counterexample :
    appMethodDropdownOpen.methodSelector.DropdownOpen = true ∧
    appMethodDropdownOpen.handleKeyMsg keyEsc =
      (appMethodDropdownOpen, some AppCmd.quit) := by
  decide

/-- Claim C8, amended: `esc` is bound to Quit (together with `ctrl+c`)
and the quit case precedes all delegation in `handleKeyMsg`, so `esc`
always quits, regardless of any open selector, and never reaches (or
closes) a selector. -/
theorem claim8_amended_esc_always_quits (a : App) :
    a.handleKeyMsg keyEsc = (a, some AppCmd.quit) := by
  simp [App.handleKeyMsg, keyEsc, keyEnter, keyCtrlC, keyTab, keyShiftTab]

/-- Claim C9, counterexample: a header row whose selected name is
"Authorization" (non-blank, not "Empty") but whose value is empty does
NOT contribute an entry to `GetHeaders`, contradicting the claimed
"if and only if its primary field is non-blank". -/
theorem claim9_counterexample :
    nthD (nthD headersGridAuthNoValue.inputs 0 defaultHeaderInput).HeaderSelect
      (nthD headersGridAuthNoValue.inputs 0 defaultHeaderInput).SelectedHeader
      emptyString = hdrAuthorization ∧
    hdrAuthorization ≠ hdrEmpty ∧
    (nthD headersGridAuthNoValue.inputs 0 defaultHeaderInput).ValueText = "" ∧
    headersGridAuthNoValue.GetHeaders hdrAuthorization = none := by
  decide

/-- Claim C9, amended: `GetParams` contributes a row exactly when its
trimmed name is non-empty (with the trimmed value stored), as claimed;
`GetHeaders` contributes a row exactly when its selection is in range,
the selected name is not "Empty", AND its value is non-empty — the
non-empty-value condition being the correction — with the value stored
verbatim. -/
theorem claim9_amended_extraction :
    (∀ (pc : ParamsContainer) (k : String),
      pc.GetParams k ≠ none ↔ ∃ p ∈ pc.Inputs, p.NameText.trim = k ∧ k ≠ "") ∧
    (∀ (pc : ParamsContainer) (k v : String), pc.GetParams k = some v →
      ∃ p ∈ pc.Inputs, p.NameText.trim = k ∧ p.ValueText.trim = v) ∧
    (∀ (h : HeadersInputContainer) (k : String),
      h.GetHeaders k ≠ none ↔ ∃ inp ∈ h.inputs,
        (0 < inp.HeaderSelect.length ∧ inp.SelectedHeader < inp.HeaderSelect.length) ∧
        nthD inp.HeaderSelect inp.SelectedHeader emptyString = k ∧ k ≠ "Empty" ∧
        inp.ValueText ≠ "") ∧
    (∀ (h : HeadersInputContainer) (k v : String), h.GetHeaders k = some v →
      ∃ inp ∈ h.inputs,
        nthD inp.HeaderSelect inp.SelectedHeader emptyString = k ∧ inp.ValueText = v) :=
  ⟨getParams_ne_none_iff,
   fun pc k v => getParams_some_val pc k v,
   getHeaders_ne_none_iff,
   fun h k v => getHeaders_some_val h k v⟩

/-- Claim C9, witness: the amended extraction law instantiated at the
concrete counterexample grid and at the fresh parameter grid. -/
theorem claim9_witness :
    (NewParamsContainer.GetParams hdrAuthorization ≠ none ↔
      ∃ p ∈ NewParamsContainer.Inputs,
        p.NameText.trim = hdrAuthorization ∧ hdrAuthorization ≠ "") ∧
    (headersGridAuthNoValue.GetHeaders hdrAuthorization ≠ none ↔
      ∃ inp ∈ headersGridAuthNoValue.inputs,
        (0 < inp.HeaderSelect.length ∧ inp.SelectedHeader < inp.HeaderSelect.length) ∧
        nthD inp.HeaderSelect inp.SelectedHeader emptyString = hdrAuthorization ∧
        hdrAuthorization ≠ "Empty" ∧ inp.ValueText ≠ "") :=
  ⟨claim9_amended_extraction.1 NewParamsContainer hdrAuthorization,
   (claim9_amended_extraction.2).2.1 headersGridAuthNoValue hdrAuthorization⟩

/-- Claim C10 (confirmed): `wrapText` is total by construction, and for
every non-positive width it returns the content unchanged, so callers
with a degenerate viewport width never alter or lose content. -/
theorem claim10_degenerate_width_identity (s : List Char) (w : Int) (h : w ≤ 0) :
    wrapText s w = s := by
  simp [wrapText, h]

/-- Claim C10, witness: the degenerate-width identity at a concrete
string and width 0. -/
theorem claim10_witness :
    (0 : Int) ≤ 0 ∧ wrapText ("abc def".toList) 0 = "abc def".toList :=
  ⟨le_refl 0, claim10_degenerate_width_identity ("abc def".toList) 0 (le_refl 0)⟩

end LazyPost
